import Mathlib

/-!
Verification development for the MIRACA EnergyModelling repository.

This file gives a shallow embedding, over exact rational arithmetic, of the
spatial generator/load assignment and scenario-dispatch engine of the
repository:

* `scripts/_4_mapping_gen_and_load.py`  — `calculate_power_limits`,
  `create_gen_or_load` (asset-to-bus resolution, load distribution);
* `scripts/_7_time_series_and_pf_calculations.py` —
  `allocate_renewable_generation`, `create_values_per_country`,
  `update_loads`, `time_series_pf_results`;
* `main_program.py` sections 7.1.2/7.1.3 — the convergence-fallback
  protocol.

Modelling conventions:

* pandas float columns become `ℚ`; a column that may be absent or unset
  (such as `normed_p_mw`, or `num` on loads) becomes `Option ℚ` / `Option ℕ`.
  The `fillna` calls of the source are identities in this exact model.
* pandas DataFrames become lists of records; row order is list order.
* the external grid solver, shapely geometry, and scipy's KDTree are
  external collaborators: the solver is an oracle argument, a polygon is a
  containment test plus a centroid, and the KDTree query is the exact
  Euclidean argmin `nearestIdx` below.  A scipy query on an empty tree
  followed by positional indexing fails in the source (IndexError); here
  this failure is the `none`/error outcome of the corresponding function.
-/

namespace EnergyModelling

/-- Python `s.startswith(p)` on strings, evaluated on the character lists. -/
def strStartsWith (s p : String) : Bool :=
  p.data.isPrefixOf s.data

/-- A bus row of `net.bus` joined with its `net.bus_geodata` coordinates
(the source keeps the two tables index-aligned). -/
structure Bus where
  idx : ℕ
  name : String
  zone : String
  vn_kv : ℚ
  in_service : Bool
  x : ℚ
  y : ℚ
  deriving DecidableEq, Repr

/-- A generator row of `net.gen` as created by `pp.create_gen` in
`create_gen_or_load` and later mutated by the time-series code. `country`
is the column added by `create_values_per_country` (empty string until it
runs); `normed_p_mw` is `none` while the column is NaN/unset. -/
structure Gen where
  bus : ℕ
  name : String
  p_mw : ℚ
  min_p_mw : ℚ
  max_p_mw : ℚ
  controllable : Bool
  type : String
  tech : String
  cost_per_mw : ℚ
  p_mw_original : ℚ
  country : String
  normed_p_mw : Option ℚ
  scaling : ℚ
  in_service : Bool
  slack : Bool
  deriving DecidableEq, Repr

/-- A load row of `net.load`.  `min_p_mw`/`max_p_mw` are columns that only
exist after the fallback controller enables curtailment, and `num` only
exists on loads created in distribute mode; both are `Option`s. -/
structure Load where
  bus : ℕ
  name : String
  p_mw : ℚ
  controllable : Bool
  num : Option ℕ
  min_p_mw : Option ℚ
  max_p_mw : Option ℚ
  in_service : Bool
  deriving DecidableEq, Repr

/-- The mutable network model (bus/gen/load tables). -/
structure Network where
  buses : List Bus
  gens : List Gen
  loads : List Load
  deriving DecidableEq, Repr

/-- Squared Euclidean distance in the pre-projected planar coordinates. -/
def sqDist (p q : ℚ × ℚ) : ℚ :=
  (p.1 - q.1) ^ 2 + (p.2 - q.2) ^ 2

/-- Auxiliary argmin scan: position (starting at `i`) and squared distance
of the point nearest to `q`, preferring the earliest index on ties. -/
def nearestIdxAux (q : ℚ × ℚ) : List (ℚ × ℚ) → ℕ → Option (ℕ × ℚ)
  | [], _ => none
  | p :: rest, i =>
    match nearestIdxAux q rest (i + 1) with
    | none => some (i, sqDist p q)
    | some (j, d) => if sqDist p q ≤ d then some (i, sqDist p q) else some (j, d)

/-- `KDTree(pts).query(q)` of scipy: index of the nearest point.  On an
empty point set the source's subsequent positional indexing fails; that
failure is the `none` outcome here. -/
def nearestIdx (pts : List (ℚ × ℚ)) (q : ℚ × ℚ) : Option ℕ :=
  (nearestIdxAux q pts 0).map (·.1)

/-- `calculate_power_limits` of `_4_mapping_gen_and_load.py`: the
technology-indexed flexibility table, returning `none` for the source's
`(None, None)` invalid-range outcome. -/
def calculate_power_limits (fueltype : String) (P_nom : ℚ) : Option (ℚ × ℚ) :=
  let pair : ℚ × ℚ :=
    if fueltype = "nuclear" then (P_nom * 0.50, P_nom * 1.00)
    else if fueltype = "coal" ∨ fueltype = "lignite" then (P_nom * 0.40, P_nom * 1.00)
    else if fueltype = "CCGT" ∨ fueltype = "OCGT" then (P_nom * 0.40, P_nom * 1.00)
    else if fueltype = "biomass" ∨ fueltype = "waste" ∨ fueltype = "oil" then
      (P_nom * 0.30, P_nom * 1.00)
    else if fueltype = "hydro" ∨ fueltype = "PHS" ∨ fueltype = "ror" then
      (P_nom * 0.10, P_nom * 1.00)
    else if fueltype = "wind" ∨ fueltype = "solar" then (0.00, P_nom * 1.00)
    else if fueltype = "geothermal" then (P_nom * 0.60, P_nom * 1.00)
    else (P_nom * 0.20, P_nom * 1.00)
  if pair.1 < 0 ∨ pair.2 ≤ pair.1 then none else some pair

/-! ## `allocate_renewable_generation` (`_7_time_series_and_pf_calculations.py`) -/

/-- The accepted `renewable` arguments of `allocate_renewable_generation`. -/
def validRenewables : List String := ["Solar", "onwind", "offwind", "wind"]

/-- Reading a generator's `normed_p_mw`; an unset share contributes the
neutral value `0` (in the source an unset share is NaN and the theorems
below only apply to generator sets whose shares are set). -/
def nval (g : Gen) : ℚ :=
  g.normed_p_mw.getD 0

/-- `network.gen.loc[network.gen["tech"] == renewable, "p_mw_original"].sum()`. -/
def techOrigSum (gens : List Gen) (r : String) : ℚ :=
  ((gens.filter fun g => g.tech = r).map Gen.p_mw_original).sum

/-- `country_generation = min(country_generation, total_max_capacity)`. -/
def cappedGeneration (gens : List Gen) (cg0 : ℚ) (r : String) : ℚ :=
  min cg0 (techOrigSum gens r)

/-- Initial allocation `p_i = normed_p_mw_i * country_generation` for the
selected technology group. -/
def assignInitial (gens : List Gen) (cg : ℚ) (r : String) : List Gen :=
  gens.map fun g => if g.tech = r then { g with p_mw := nval g * cg } else g

/-- Per-row `excess_generation = max(0, p_mw - p_mw_original)`. -/
def genExcess (g : Gen) : ℚ :=
  max 0 (g.p_mw - g.p_mw_original)

/-- `excess_generation.sum()` over the technology group. -/
def totalExcess (gens : List Gen) (r : String) : ℚ :=
  ((gens.filter fun g => g.tech = r).map genExcess).sum

/-- Clipping `p_mw -= excess_generation` for the technology group. -/
def clipGroup (gens : List Gen) (r : String) : List Gen :=
  gens.map fun g => if g.tech = r then { g with p_mw := g.p_mw - genExcess g } else g

/-- `available_generators`: rows of the whole generator table with
`p_mw < p_mw_original`. -/
def availableGens (gens : List Gen) : List Gen :=
  gens.filter fun g => g.p_mw < g.p_mw_original

/-- `total_available_capacity = (p_mw_original - p_mw).sum()` over the
available generators. -/
def availableHeadroom (gens : List Gen) : ℚ :=
  ((availableGens gens).map fun g => g.p_mw_original - g.p_mw).sum

/-- Excess redistribution: every available generator (across the whole
table, not only the selected technology) gains
`(p_mw_original - p_mw) * (excess / total_available_capacity)`; skipped
when there are no available generators or no positive headroom. -/
def redistribute (gens : List Gen) (e : ℚ) : List Gen :=
  if (availableGens gens).isEmpty then gens
  else
    let h := availableHeadroom gens
    if 0 < h then
      gens.map fun g =>
        if g.p_mw < g.p_mw_original then
          { g with p_mw := g.p_mw + (g.p_mw_original - g.p_mw) * (e / h) }
        else g
    else gens

/-- Final freeze: `min_p_mw` and `max_p_mw` of the technology group are set
to the dispatched `p_mw`. -/
def freezeGroup (gens : List Gen) (r : String) : List Gen :=
  gens.map fun g =>
    if g.tech = r then { g with min_p_mw := g.p_mw, max_p_mw := g.p_mw } else g

/-- `allocate_renewable_generation(network, country_generation, renewable)`.
The pair's second component is the raised `ValueError` message (`none` on
success); on the error path the network is returned untouched, as the
source validates before any mutation. -/
def allocate_renewable_generation (net : Network) (cg0 : ℚ) (r : String) :
    Network × Option String :=
  if r ∉ validRenewables then
    (net, some "Invalid renewable type. Choose from 'solar', 'onwind', 'offwind' or 'wind'.")
  else
    let cg := cappedGeneration net.gens cg0 r
    let g1 := assignInitial net.gens cg r
    let e := totalExcess g1 r
    let g2 := clipGroup g1 r
    let g3 := redistribute g2 e
    let g4 := freezeGroup g3 r
    ({ net with gens := g4 }, none)

/-- The clipping excess produced by a call to the redistribution engine
(`excess_generation.sum()` of the source, as a function of the inputs). -/
def clipExcessOf (net : Network) (cg0 : ℚ) (r : String) : ℚ :=
  totalExcess (assignInitial net.gens (cappedGeneration net.gens cg0 r) r) r

/-- The total headroom available for redistribution at the redistribution
step of a call (`total_available_capacity` of the source). -/
def headroomOf (net : Network) (cg0 : ℚ) (r : String) : ℚ :=
  availableHeadroom (clipGroup (assignInitial net.gens (cappedGeneration net.gens cg0 r) r) r)

/-! ## `create_values_per_country` (`_7_time_series_and_pf_calculations.py`) -/

/-- A row of the `processed_regions` GeoDataFrame, restricted to the
columns the time-series code reads. -/
structure Region where
  country : String
  id : String
  load_factor : ℚ
  deriving DecidableEq, Repr

/-- `processed_regions["country"].unique()`: first occurrences, in order. -/
def uniqueList (l : List String) : List String :=
  l.foldl (fun acc c => if c ∈ acc then acc else acc ++ [c]) []

/-- The `"UK" -> "GB"` remapping applied inside the country loop. -/
def remapUK (c : String) : String :=
  if c = "UK" then "GB" else c

/-- Which generator column a category key is matched against
(`categories = {"solar": "type", "wind": "type", "onwind": "tech",
"offwind": "tech"}`). -/
inductive Col where
  | type
  | tech
  deriving DecidableEq, Repr

/-- Reading the column selected by a `Col`. -/
def colVal : Col → Gen → String
  | Col.type, g => g.type
  | Col.tech, g => g.tech

/-- `country_gen[country_gen[value] == key]["p_mw_original"].sum()` for the
generators of one country. -/
def catTotal (gens : List Gen) (country key : String) (col : Col) : ℚ :=
  ((gens.filter fun g => g.country = country ∧ colVal col g = key).map
    Gen.p_mw_original).sum

/-- The `totals` dictionary of one country-loop iteration. -/
structure Totals where
  solar : ℚ
  wind : ℚ
  onwind : ℚ
  offwind : ℚ
  deriving DecidableEq, Repr

/-- `totals` computed for one country. -/
def totalsOf (gens : List Gen) (country : String) : Totals where
  solar := catTotal gens country "solar" Col.type
  wind := catTotal gens country "wind" Col.type
  onwind := catTotal gens country "onwind" Col.tech
  offwind := catTotal gens country "offwind" Col.tech

/-- One iteration of the normalization loop: when the category total is
positive, `normed_p_mw` of the matching rows is set to
`p_mw_original / total`; otherwise the rows are left untouched. -/
def writeCat (gens : List Gen) (country key : String) (col : Col) (t : ℚ) :
    List Gen :=
  if 0 < t then
    gens.map fun g =>
      if g.country = country ∧ colVal col g = key then
        { g with normed_p_mw := some (g.p_mw_original / t) }
      else g
  else gens

/-- One iteration of the country loop: compute `totals`, then run the four
normalization writes in the dictionary order solar, wind, onwind, offwind,
and produce the cache entry for the (remapped) country. -/
def processCountry (gens : List Gen) (country0 : String) :
    List Gen × (String × Totals) :=
  let country := remapUK country0
  let t := totalsOf gens country
  let gens1 := writeCat gens country "solar" Col.type t.solar
  let gens2 := writeCat gens1 country "wind" Col.type t.wind
  let gens3 := writeCat gens2 country "onwind" Col.tech t.onwind
  let gens4 := writeCat gens3 country "offwind" Col.tech t.offwind
  (gens4, (country, t))

/-- `cached_values[country] = totals`: association-list update with Python
dict overwrite semantics. -/
def upsert : List (String × Totals) → String × Totals → List (String × Totals)
  | [], e => [e]
  | (k, v) :: rest, e =>
    if k = e.1 then (k, e.2) :: rest else (k, v) :: upsert rest e

/-- The country loop of the recompute branch, threading the generator
table and the cache dictionary. -/
def recomputeCountries :
    List Gen → List String → List (String × Totals) →
      List Gen × List (String × Totals)
  | gens, [], cache => (gens, cache)
  | gens, c :: cs, cache =>
    let p := processCountry gens c
    recomputeCountries p.1 cs (upsert cache p.2)

/-- `network.bus["zone"]` looked up by bus index (the
`network.gen["bus"].map(network.bus["zone"])` join). -/
def zoneOf (buses : List Bus) (b : ℕ) : String :=
  ((buses.find? fun bu => bu.idx = b).map Bus.zone).getD ""

/-- The function attribute `create_values_per_country.cached_values`:
process-wide mutable state, absent before the first call. -/
structure NormalizerState where
  cache : Option (List (String × Totals))
  deriving DecidableEq, Repr

/-- `network.gen["country"] = network.gen["bus"].map(network.bus["zone"])`:
the country-column refresh run on every call. -/
def genCountries (net : Network) : List Gen :=
  net.gens.map fun g => { g with country := zoneOf net.buses g.bus }

/-- `create_values_per_country(network, processed_regions, force_update)`:
always refreshes the `country` column of the generator table, then either
reuses the cache verbatim (no force, cache present) or recomputes totals
and normalized shares for every unique region country.  Returns the
updated network, the new process state, and the returned cache. -/
def create_values_per_country (net : Network) (regions : List Region)
    (force : Bool) (st : NormalizerState) :
    Network × NormalizerState × List (String × Totals) :=
  let countries := uniqueList (regions.map Region.country)
  let gens0 := genCountries net
  match st.cache, force with
  | some c, false => ({ net with gens := gens0 }, st, c)
  | _, _ =>
    let p := recomputeCountries gens0 countries []
    ({ net with gens := p.1 }, ⟨some p.2⟩, p.2)

/-! ## `create_gen_or_load` (`_4_mapping_gen_and_load.py`) -/

/-- A polygon as the resolver uses it: a containment test for bus
coordinates (`geometry.within`) and a centroid.  Shapely supplies both;
they are external collaborators of the core. -/
structure Polygon where
  containsPt : ℚ × ℚ → Bool
  centroid : ℚ × ℚ

/-- A row of the asset GeoDataFrame handed to `create_gen_or_load`
(generator and load columns combined, as in the source's duck-typed rows;
`adjusted_marginal_price` is `none` when NaN). -/
structure Element where
  geometry : Polygon
  zone : String
  capacity : ℚ
  fueltype : String
  technology : String
  name : String
  id : String
  load_factor : ℚ
  adjusted_marginal_price : Option ℚ

/-- The failure mode of the resolver: a nearest-neighbor query issued on an
empty candidate index (scipy returns the missing index `n` and the
subsequent positional lookup raises IndexError).  The source defines no
other failure for the resolution step — in particular no
`NoEligibleBusError` guard exists. -/
inductive ResolveError where
  | emptyIndexQuery
  deriving DecidableEq, Repr

/-- `net.bus[net.bus["zone"] == element["zone"]]`. -/
def countryBuses (net : Network) (zone : String) : List Bus :=
  net.buses.filter fun b => b.zone = zone

/-- The real-substation filter: name starts with `"relation"` or `"way"`,
and the bus is in service. -/
def isRealSubstation (b : Bus) : Bool :=
  (strStartsWith b.name "relation" || strStartsWith b.name "way") && b.in_service

/-- `real_country_buses`: in-service real substations of the zone. -/
def realCountryBuses (net : Network) (zone : String) : List Bus :=
  (countryBuses net zone).filter isRealSubstation

/-- `buses_within_polygon`: real substations of the zone whose coordinates
fall inside the element's polygon. -/
def busesWithinPolygon (net : Network) (e : Element) : List Bus :=
  (realCountryBuses net e.zone).filter fun b => e.geometry.containsPt (b.x, b.y)

/-- `KDTree(candidates).query(q)` followed by positional indexing into the
candidate rows; `none` exactly when the candidate set is empty (the
IndexError of the source). -/
def nearestBusIn (cand : List Bus) (q : ℚ × ℚ) : Option Bus :=
  (nearestIdx (cand.map fun b => (b.x, b.y)) q).bind fun i => cand.get? i

/-- The closest-bus resolution of one element (source lines 95-147): if
real substations lie within the polygon, take the nearest among those of
lowest voltage; otherwise query the nearest real substation of the zone to
the polygon centroid.  The KDTree over `real_country_buses` is built
unconditionally in the source, also over an empty candidate set; the query
on the empty set is the `.error` outcome. -/
def resolveClosestBus (net : Network) (e : Element) : Except ResolveError ℕ :=
  let W := busesWithinPolygon net e
  let coords := e.geometry.centroid
  if W.isEmpty then
    match nearestBusIn (realCountryBuses net e.zone) coords with
    | none => Except.error ResolveError.emptyIndexQuery
    | some b => Except.ok b.idx
  else
    let minV := ((W.map Bus.vn_kv).min?).getD 0
    let lowest := W.filter fun b => b.vn_kv = minV
    match nearestBusIn lowest coords with
    | none => Except.error ResolveError.emptyIndexQuery
    | some b => Except.ok b.idx

/-- The `pp.create_gen` call of the source: note `controllable=True` is
hard-coded, `p_mw` and `p_mw_original` are both the nameplate capacity,
and `min_p_mw`/`max_p_mw` are the (possibly zeroed) computed limits. -/
def mkGenRecord (e : Element) (bus : ℕ) (pmin pmax marginal : ℚ) : Gen where
  bus := bus
  name := e.name
  p_mw := e.capacity
  min_p_mw := pmin
  max_p_mw := pmax
  controllable := true
  type := e.fueltype
  tech := e.technology
  cost_per_mw := marginal
  p_mw_original := e.capacity
  country := ""
  normed_p_mw := none
  scaling := 1
  in_service := true
  slack := false

/-- Processing of a single element of the loop body of
`create_gen_or_load`. -/
def processElement (net : Network) (e : Element) (Type_ : String)
    (distribute_gen distribute_load : Bool) : Except ResolveError Network :=
  match resolveClosestBus net e with
  | Except.error err => Except.error err
  | Except.ok closest0 =>
    if Type_ = "gen" then
      let lims := calculate_power_limits e.fueltype e.capacity
      let controllable := lims.isSome
      let marginal := e.adjusted_marginal_price.getD 0
      let pmin := if controllable then (lims.getD (0, 0)).1 else 0
      let pmax := if controllable then (lims.getD (0, 0)).2 else 0
      if distribute_gen then
        match nearestBusIn (countryBuses net e.zone) e.geometry.centroid with
        | none => Except.error ResolveError.emptyIndexQuery
        | some b =>
          Except.ok { net with gens := net.gens ++ [mkGenRecord e b.idx pmin pmax marginal] }
      else
        Except.ok { net with gens := net.gens ++ [mkGenRecord e closest0 pmin pmax marginal] }
    else if Type_ = "load" then
      if ¬distribute_load then
        Except.ok { net with loads := net.loads ++
          [{ bus := closest0, name := e.id, p_mw := e.load_factor,
             controllable := false, num := none, min_p_mw := none,
             max_p_mw := none, in_service := true }] }
      else
        let W := busesWithinPolygon net e
        if ¬W.isEmpty then
          Except.ok { net with loads := net.loads ++ W.map fun b =>
            { bus := b.idx, name := e.id, p_mw := e.load_factor / (W.length : ℚ),
              controllable := false, num := some W.length, min_p_mw := none,
              max_p_mw := none, in_service := true } }
        else
          Except.ok { net with loads := net.loads ++
            [{ bus := closest0, name := e.id, p_mw := e.load_factor,
               controllable := false, num := some 1, min_p_mw := none,
               max_p_mw := none, in_service := true }] }
    else
      Except.ok net

/-- `create_gen_or_load(gdf, Type, net, distribute_gen, distribute_load)`:
the loop over asset rows.  An unguarded empty-index query aborts the whole
construction (the IndexError propagates); an invalid `Type` returns after
the first element (the source's `return print(...)`). -/
def create_gen_or_load (gdf : List Element) (Type_ : String) (net : Network)
    (distribute_gen distribute_load : Bool) : Except ResolveError Network :=
  match gdf with
  | [] => Except.ok net
  | e :: es =>
    match processElement net e Type_ distribute_gen distribute_load with
    | Except.error err => Except.error err
    | Except.ok net1 =>
      if Type_ = "gen" ∨ Type_ = "load" then
        create_gen_or_load es Type_ net1 distribute_gen distribute_load
      else
        Except.ok net1

/-! ## Convergence-fallback protocol (`main_program.py` 7.1.2 and 7.1.3) -/

/-- The solve attempts the main program can issue, in source order. -/
inductive Attempt where
  | acPF
  | dcOPF1
  | dcOPF2
  | dcOPF3
  | dcOPF4
  | acPFScaled
  deriving DecidableEq, Repr

/-- The network mutations the fallback code can apply, in source order. -/
inductive Mutation where
  | relaxNonRenewable
  | relaxAll
  | curtailLoads
  | applyScaling
  deriving DecidableEq, Repr

/-- Stage-3 mutation: controllable generators whose `type` is not solar or
wind get `max_p_mw` forced to the dispatched `p_mw` and `min_p_mw` to 0. -/
def relaxNonRenewableGens (net : Network) : Network :=
  { net with gens := net.gens.map fun g =>
      if g.controllable ∧ g.type ≠ "solar" ∧ g.type ≠ "wind" then
        { g with max_p_mw := g.p_mw, min_p_mw := 0 }
      else g }

/-- Stage-4 mutation: the same relaxation on all controllable generators. -/
def relaxAllControllable (net : Network) : Network :=
  { net with gens := net.gens.map fun g =>
      if g.controllable then { g with max_p_mw := g.p_mw, min_p_mw := 0 } else g }

/-- Stage-5 mutation: load curtailment — every load gets
`min_p_mw = 0.1 * p_mw`, `max_p_mw = 1 * p_mw`, `controllable = True`. -/
def curtailNetLoads (net : Network) : Network :=
  { net with loads := net.loads.map fun l =>
      { l with min_p_mw := some (l.p_mw * 0.1), max_p_mw := some (l.p_mw * 1),
               controllable := true } }

/-- `calculate_scaling_factor` of section 7.1.3. -/
def calculate_scaling_factor (net : Network) : ℚ :=
  let total_gen_power := ((net.gens.filter Gen.in_service).map Gen.p_mw).sum
  let total_load_power := ((net.loads.filter Load.in_service).map Load.p_mw).sum
  if 0 < total_gen_power then total_load_power / total_gen_power else 1

/-- `net.gen["scaling"] = scaling_factor` of section 7.1.3. -/
def applyScalingFactor (net : Network) : Network :=
  { net with gens := net.gens.map fun g => { g with scaling := calculate_scaling_factor net } }

/-- Observable outcome of a run of sections 7.1.2/7.1.3: the final network,
the solve attempts issued in order, the mutations applied in order, the
final `converged` flag, and whether the stage-5 diagnostic path ran. -/
structure FallbackResult where
  net : Network
  attempts : List Attempt
  mutations : List Mutation
  converged : Bool
  diagnostics : Bool
  deriving DecidableEq, Repr

/-- The fallback control flow of `main_program.py` sections 7.1.2 and
7.1.3, with the external solver pipeline (`handle_pf_results`, which runs
the whole time series and judges NaN results or line loadings above 100 %
as failure) abstracted as an oracle giving the outcome of the n-th solve
attempt.  Faithful to the source: the step-1 AC power flow is issued but
its boolean outcome is discarded and `converged` is unconditionally reset
to `False` (lines 437-441), so the first DC OPF always runs; after a
stage-5 failure the diagnostics run and section 7.1.3 applies the scaling
factor and issues one final AC power flow attempt. -/
def fallbackProtocol (oracle : ℕ → Bool) (net0 : Network) : FallbackResult :=
  let _r1 := oracle 0
  if oracle 1 then
    { net := net0, attempts := [Attempt.acPF, Attempt.dcOPF1], mutations := [],
      converged := true, diagnostics := false }
  else
    let net1 := relaxNonRenewableGens net0
    if oracle 2 then
      { net := net1, attempts := [Attempt.acPF, Attempt.dcOPF1, Attempt.dcOPF2],
        mutations := [Mutation.relaxNonRenewable], converged := true,
        diagnostics := false }
    else
      let net2 := relaxAllControllable net1
      if oracle 3 then
        { net := net2,
          attempts := [Attempt.acPF, Attempt.dcOPF1, Attempt.dcOPF2, Attempt.dcOPF3],
          mutations := [Mutation.relaxNonRenewable, Mutation.relaxAll],
          converged := true, diagnostics := false }
      else
        let net3 := curtailNetLoads net2
        if oracle 4 then
          { net := net3,
            attempts := [Attempt.acPF, Attempt.dcOPF1, Attempt.dcOPF2,
              Attempt.dcOPF3, Attempt.dcOPF4],
            mutations := [Mutation.relaxNonRenewable, Mutation.relaxAll,
              Mutation.curtailLoads],
            converged := true, diagnostics := false }
        else
          let net4 := applyScalingFactor net3
          let _r6 := oracle 5
          { net := net4,
            attempts := [Attempt.acPF, Attempt.dcOPF1, Attempt.dcOPF2,
              Attempt.dcOPF3, Attempt.dcOPF4, Attempt.acPFScaled],
            mutations := [Mutation.relaxNonRenewable, Mutation.relaxAll,
              Mutation.curtailLoads, Mutation.applyScaling],
            converged := false, diagnostics := true }

/-! ## `update_loads` and `time_series_pf_results`
(`_7_time_series_and_pf_calculations.py`) -/

/-- The country-level time series: its set of columns and, for a present
column, its value at a time-step index. -/
structure TimeSeries where
  cols : List String
  val : String → ℕ → ℚ

/-- `cached_values[country_code]`; `none` is the KeyError of a missing
country. -/
def lookupTotals (cache : List (String × Totals)) (c : String) : Option Totals :=
  (cache.find? fun e => e.1 = c).map (·.2)

/-- The state threaded through the region loop of `update_loads`: the
network plus the six wind prefix/match variables that are initialized to
`None` once, before the loop (source lines 226-228), and therefore persist
from one region iteration to the next. -/
structure RegionScanState where
  net : Network
  prefixOnwind : Option String
  prefixOffwind : Option String
  prefixWind : Option String
  matchWind : Option (List String)
  matchOnwind : Option (List String)
  matchOffwind : Option (List String)

/-- One iteration of the region loop of `update_loads` (source lines
232-406).  `none` is a crash: either the KeyError of a missing cache
country, or the IndexError of `matching_columns_wind[0]` on an empty
match list in the generic-wind fallback. -/
def updateRegion (ts : TimeSeries) (t : ℕ) (variable_ : Bool)
    (cache : List (String × Totals)) (st : RegionScanState) (region : Region) :
    Option RegionScanState :=
  let hasOnwind := st.net.gens.any fun g => g.tech = "onwind"
  let hasOffwind := st.net.gens.any fun g => g.tech = "offwind"
  let cc := remapUK region.country
  let ep := if region.country = "UK" then "GB_UKM_load_actual"
    else region.country ++ "_load_actual"
  let epSolar := if region.country = "UK" then "GB_UKM_solar_generation_actual"
    else region.country ++ "_solar_generation_actual"
  let onshoreCol := if region.country = "UK" then "GB_UKM_wind_onshore_generation_actual"
    else region.country ++ "_wind_onshore_generation_actual"
  let offshoreCol := if region.country = "UK" then "GB_UKM_wind_offshore_generation_actual"
    else region.country ++ "_wind_offshore_generation_actual"
  let pOn := if hasOnwind ∧ onshoreCol ∈ ts.cols then some onshoreCol
    else st.prefixOnwind
  let pOffWind : Option String × Option String :=
    if region.country = "UK" then
      if hasOffwind then
        (if offshoreCol ∈ ts.cols then some offshoreCol else st.prefixOffwind,
         st.prefixWind)
      else (st.prefixOffwind, some "GB_UKM_wind_generation_actual")
    else
      if hasOffwind then
        if offshoreCol ∈ ts.cols then (some offshoreCol, st.prefixWind)
        else (st.prefixOffwind, some (region.country ++ "_wind_generation_actual"))
      else (st.prefixOffwind, st.prefixWind)
  let pOff := pOffWind.1
  let pWind := pOffWind.2
  match lookupTotals cache cc with
  | none => none
  | some tot =>
    let mc := ts.cols.filter fun col => strStartsWith col ep
    let mcSolar := ts.cols.filter fun col => strStartsWith col epSolar
    let mOn := if pOn.isSome then
        some (ts.cols.filter fun col => strStartsWith col (pOn.getD ""))
      else st.matchOnwind
    let mOff := if pOff.isSome then
        some (ts.cols.filter fun col => strStartsWith col (pOff.getD ""))
      else st.matchOffwind
    let mW := if pOn = none ∧ pOff = none ∧ pWind ≠ none then
        some (ts.cols.filter fun col => strStartsWith col (pWind.getD ""))
      else st.matchWind
    let net1 :=
      if mc ≠ [] then
        let country_load := ts.val (mc.headD "") t
        let region_load := country_load * region.load_factor
        if st.net.loads.any (fun l => l.name = region.id) then
          if st.net.loads.any (fun l => l.num.isSome) then
            { st.net with loads := st.net.loads.map fun l =>
                if l.name = region.id then
                  { l with p_mw := region_load / ((l.num.getD 1 : ℕ) : ℚ) }
                else l }
          else
            { st.net with loads := st.net.loads.map fun l =>
                if l.name = region.id then { l with p_mw := region_load } else l }
        else st.net
      else st.net
    let netAfter : Option Network :=
      if variable_ then some net1
      else
        let net2 := if mcSolar ≠ [] ∧ 0 < tot.solar then
            (allocate_renewable_generation net1 (ts.val (mcSolar.headD "") t) "Solar").1
          else net1
        let net3 := match mOn with
          | some (c :: _) =>
            if 0 < tot.onwind then
              (allocate_renewable_generation net2 (ts.val c t) "onwind").1
            else net2
          | _ => net2
        let net4 := match mOff with
          | some (c :: _) =>
            if 0 < tot.offwind then
              (allocate_renewable_generation net3 (ts.val c t) "offwind").1
            else net3
          | _ => net3
        if mOff = none ∧ mOn = none ∧ mW ≠ none then
          match mW with
          | some (c :: _) => some (allocate_renewable_generation net4 (ts.val c t) "wind").1
          | some [] => none
          | none => some net4
        else some net4
    match netAfter with
    | none => none
    | some netF =>
      some { net := netF, prefixOnwind := pOn, prefixOffwind := pOff,
             prefixWind := pWind, matchWind := mW, matchOnwind := mOn,
             matchOffwind := mOff }

/-- `update_loads(network, time_series, regions, time_step, force_update,
variable)`: refresh the normalizer, force `tech = "solar"` on solar-typed
generators, then run the region loop.  `none` is an uncaught exception. -/
def update_loads (net : Network) (ts : TimeSeries) (regions : List Region)
    (t : ℕ) (force variable_ : Bool) (st : NormalizerState) :
    Option (Network × NormalizerState) :=
  let c0 := create_values_per_country net regions force st
  let net0 := c0.1
  let st1 := c0.2.1
  let cache := c0.2.2
  let net1 := { net0 with gens := net0.gens.map fun g =>
      if g.type = "solar" then { g with tech := "solar" } else g }
  let init : RegionScanState :=
    { net := net1, prefixOnwind := none, prefixOffwind := none,
      prefixWind := none, matchWind := none, matchOnwind := none,
      matchOffwind := none }
  match regions.foldlM (updateRegion ts t variable_ cache) init with
  | none => none
  | some s => some (s.net, st1)

/-- What the driver reads back from one external solve: the aggregates of
the summary row.  The solver itself is out of scope (external grid solver
collaborator). -/
structure SolverOutput where
  total_load : ℚ
  total_generation : ℚ
  max_line_loading : ℚ
  max_loading_index : ℕ
  deriving DecidableEq, Repr

/-- One summary row of `pf_results`. -/
structure SummaryRow where
  time_step : ℕ
  total_load : ℚ
  total_generation : ℚ
  max_line_loading : ℚ
  max_loading_index : ℕ
  deriving DecidableEq, Repr

/-- The accepted `calculation` arguments of the driver. -/
def validCalculations : List String := ["ac_pf", "dc_opf", "ac_opf"]

/-- The time-step loop of `time_series_pf_results`, accumulating summary
rows; `none` is an uncaught exception (from `update_loads` or from the
ValueError on an invalid `calculation`). -/
def timeSeriesAux (solver : String → Network → SolverOutput)
    (calculation : String) (ts : TimeSeries) (regions : List Region) :
    List ℕ → Network → NormalizerState → Bool → Bool → List SummaryRow →
      Option (List SummaryRow × Network × NormalizerState)
  | [], net, st, _, _, acc => some (acc.reverse, net, st)
  | t :: rest, net, st, firstIter, variable_, acc =>
    match update_loads net ts regions t firstIter variable_ st with
    | none => none
    | some (net1, st1) =>
      if calculation ∈ validCalculations then
        let out := solver calculation net1
        timeSeriesAux solver calculation ts regions rest net1 st1 false variable_
          ({ time_step := t, total_load := out.total_load,
             total_generation := out.total_generation,
             max_line_loading := out.max_line_loading,
             max_loading_index := out.max_loading_index } :: acc)
      else none

/-- `time_series_pf_results(calculation, time_series_short, net,
processed_regions, pp, force_update, variable)`: iterate the supplied time
steps in order, updating loads and generation and collecting exactly one
summary row per solved step.  `first_iteration` starts as `force_update`
and is `False` from the second step on. -/
def time_series_pf_results (solver : String → Network → SolverOutput)
    (calculation : String) (ts : TimeSeries) (steps : List ℕ) (net : Network)
    (regions : List Region) (st : NormalizerState) (force variable_ : Bool) :
    Option (List SummaryRow × Network × NormalizerState) :=
  timeSeriesAux solver calculation ts regions steps net st force variable_ []


/-! ## Verification of the claims -/

/-- Sum of dispatched `p_mw` over the technology group of a generator table. -/
def groupPSum (l : List Gen) (r : String) : ℚ :=
  ((l.filter fun g => g.tech = r).map Gen.p_mw).sum

/-- Sum of dispatched `p_mw` over the rows outside the technology group. -/
def nonGroupPSum (l : List Gen) (r : String) : ℚ :=
  ((l.filter fun g => g.tech ≠ r).map Gen.p_mw).sum

/-- Sum of dispatched `p_mw` over the whole generator table. -/
def totalPSum (l : List Gen) : ℚ :=
  (l.map Gen.p_mw).sum

lemma totalPSum_split (l : List Gen) (r : String) :
    totalPSum l = groupPSum l r + nonGroupPSum l r := by
  induction l with
  | nil => simp [totalPSum, groupPSum, nonGroupPSum]
  | cons a t ih =>
    by_cases h : a.tech = r <;>
      simp [totalPSum, groupPSum, nonGroupPSum, h, List.sum_cons] at ih ⊢ <;> linarith

lemma groupPSum_assign (l : List Gen) (cg : ℚ) (r : String) :
    groupPSum (assignInitial l cg r) r =
      ((l.filter fun g => g.tech = r).map nval).sum * cg := by
  induction l with
  | nil => simp [groupPSum, assignInitial]
  | cons a t ih =>
    by_cases h : a.tech = r <;>
      simp [groupPSum, assignInitial, h, nval] at ih ⊢ <;> linarith [ih]

lemma groupPSum_clip (l : List Gen) (r : String) :
    groupPSum (clipGroup l r) r = groupPSum l r - totalExcess l r := by
  induction l with
  | nil => simp [groupPSum, clipGroup, totalExcess]
  | cons a t ih =>
    by_cases h : a.tech = r <;>
      simp [groupPSum, clipGroup, totalExcess, h] at ih ⊢ <;> linarith

lemma nonGroupPSum_assign_clip (l : List Gen) (cg : ℚ) (r : String) :
    nonGroupPSum (clipGroup (assignInitial l cg r) r) r = nonGroupPSum l r := by
  induction l with
  | nil => simp [nonGroupPSum, clipGroup, assignInitial]
  | cons a t ih =>
    by_cases h : a.tech = r <;>
      simp [nonGroupPSum, clipGroup, assignInitial, h] at ih ⊢ <;> linarith

lemma totalExcess_nonneg (l : List Gen) (r : String) : 0 ≤ totalExcess l r := by
  apply List.sum_nonneg
  intro x hx
  rw [List.mem_map] at hx
  obtain ⟨g, _, rfl⟩ := hx
  exact le_max_left 0 _

lemma availableHeadroom_eq_mapSum (l : List Gen) :
    availableHeadroom l =
      (l.map fun g =>
        if g.p_mw < g.p_mw_original then g.p_mw_original - g.p_mw else 0).sum := by
  induction l with
  | nil => simp [availableHeadroom, availableGens]
  | cons a t ih =>
    by_cases h : a.p_mw < a.p_mw_original <;>
      simp [availableHeadroom, availableGens, h] at ih ⊢ <;> linarith

lemma availableHeadroom_pos (l : List Gen) (hne : ¬(availableGens l).isEmpty) :
    0 < availableHeadroom l := by
  apply List.sum_pos
  · intro x hx
    rw [List.mem_map] at hx
    obtain ⟨g, hg, rfl⟩ := hx
    rw [availableGens, List.mem_filter] at hg
    have := of_decide_eq_true hg.2
    linarith
  · intro hmap
    apply hne
    rw [List.map_eq_nil_iff] at hmap
    simp [hmap]

lemma sum_scale (l : List Gen) (s : ℚ) :
    totalPSum (l.map fun g =>
        if g.p_mw < g.p_mw_original then
          { g with p_mw := g.p_mw + (g.p_mw_original - g.p_mw) * s }
        else g) =
      totalPSum l +
        s * (l.map fun g =>
          if g.p_mw < g.p_mw_original then g.p_mw_original - g.p_mw else 0).sum := by
  induction l with
  | nil => simp [totalPSum]
  | cons a t ih =>
    by_cases h : a.p_mw < a.p_mw_original <;>
      simp [totalPSum, h] at ih ⊢ <;> linarith [ih]

lemma totalPSum_redistribute (l : List Gen) (e : ℚ)
    (he0 : 0 ≤ e) (hsuff : e ≤ availableHeadroom l) :
    totalPSum (redistribute l e) = totalPSum l + e := by
  rw [redistribute]
  by_cases hemp : (availableGens l).isEmpty
  · rw [if_pos hemp]
    have h0 : availableHeadroom l = 0 := by
      rw [availableHeadroom]
      rw [List.isEmpty_iff] at hemp
      simp [hemp]
    have : e = 0 := le_antisymm (h0 ▸ hsuff) he0
    rw [this, add_zero]
  · have hpos := availableHeadroom_pos l hemp
    rw [if_neg hemp, if_pos hpos]
    rw [sum_scale, ← availableHeadroom_eq_mapSum]
    rw [div_mul_cancel₀ _ (ne_of_gt hpos)]

lemma totalPSum_freeze (l : List Gen) (r : String) :
    totalPSum (freezeGroup l r) = totalPSum l := by
  induction l with
  | nil => simp [totalPSum, freezeGroup]
  | cons a t ih =>
    by_cases h : a.tech = r <;> simp [totalPSum, freezeGroup, h] at ih ⊢ <;> linarith

lemma clipGroup_le (l : List Gen) (r : String)
    (h : ∀ g ∈ l, g.tech ≠ r → g.p_mw ≤ g.p_mw_original) :
    ∀ g ∈ clipGroup l r, g.p_mw ≤ g.p_mw_original := by
  intro g hg
  rw [clipGroup, List.mem_map] at hg
  obtain ⟨g0, hg0, rfl⟩ := hg
  by_cases ht : g0.tech = r
  · simp [ht, genExcess]
    have := le_max_right (0 : ℚ) (g0.p_mw - g0.p_mw_original)
    linarith
  · simp [ht]
    exact h g0 hg0 ht

lemma redistribute_le (l : List Gen) (e : ℚ) (he0 : 0 ≤ e)
    (hle : ∀ g ∈ l, g.p_mw ≤ g.p_mw_original)
    (hsuff : e ≤ availableHeadroom l) :
    ∀ g ∈ redistribute l e, g.p_mw ≤ g.p_mw_original := by
  rw [redistribute]
  by_cases hemp : (availableGens l).isEmpty
  · rw [if_pos hemp]; exact hle
  · have hpos := availableHeadroom_pos l hemp
    rw [if_neg hemp, if_pos hpos]
    intro g hg
    rw [List.mem_map] at hg
    obtain ⟨g0, hg0, rfl⟩ := hg
    by_cases hav : g0.p_mw < g0.p_mw_original
    · simp [hav]
      have h1 : e / availableHeadroom l ≤ 1 := (div_le_one hpos).mpr hsuff
      have h2 : (0 : ℚ) ≤ e / availableHeadroom l := div_nonneg he0 hpos.le
      nlinarith
    · simp [hav]; exact hle g0 hg0

lemma assignInitial_nonGroup_le (l : List Gen) (cg : ℚ) (r : String)
    (hInit : ∀ g ∈ l, g.p_mw ≤ g.p_mw_original) :
    ∀ g ∈ assignInitial l cg r, g.tech ≠ r → g.p_mw ≤ g.p_mw_original := by
  intro g hg
  rw [assignInitial, List.mem_map] at hg
  obtain ⟨g0, hg0, rfl⟩ := hg
  by_cases ht : g0.tech = r
  · simp [ht]
  · simp [ht]
    exact hInit g0 hg0

lemma freezeGroup_le (l : List Gen) (r : String)
    (hle : ∀ g ∈ l, g.p_mw ≤ g.p_mw_original) :
    ∀ g ∈ freezeGroup l r, g.p_mw ≤ g.p_mw_original := by
  intro g hg
  rw [freezeGroup, List.mem_map] at hg
  obtain ⟨g0, hg0, rfl⟩ := hg
  by_cases ht : g0.tech = r <;> simp [ht] <;> exact hle g0 hg0

/-- C1 (amended): with the technology's shares summing to 1, all dispatch
initially within nameplate, and total headroom sufficient, a call to the
redistribution engine succeeds; afterwards no generator exceeds its
nameplate; and the total dispatched output over the whole table equals the
pre-call output of the other technologies plus the observation capped at
the category's total nameplate capacity. -/
theorem allocate_caps_bounds_and_total (net : Network) (cg0 : ℚ) (r : String)
    (hr : r ∈ validRenewables)
    (hShares : ((net.gens.filter fun g => g.tech = r).map nval).sum = 1)
    (hInit : ∀ g ∈ net.gens, g.p_mw ≤ g.p_mw_original)
    (hSuff : clipExcessOf net cg0 r ≤ headroomOf net cg0 r) :
    (allocate_renewable_generation net cg0 r).2 = none ∧
    (∀ g ∈ (allocate_renewable_generation net cg0 r).1.gens,
        g.p_mw ≤ g.p_mw_original) ∧
    totalPSum (allocate_renewable_generation net cg0 r).1.gens =
      nonGroupPSum net.gens r + min cg0 (techOrigSum net.gens r) := by
  have hval : ¬ r ∉ validRenewables := not_not.mpr hr
  rw [allocate_renewable_generation, if_neg hval]
  set cg := cappedGeneration net.gens cg0 r with hcg
  set A := assignInitial net.gens cg r with hA
  set E := totalExcess A r with hE
  set Cl := clipGroup A r with hCl
  have hE0 : 0 ≤ E := totalExcess_nonneg A r
  have hEsuff : E ≤ availableHeadroom Cl := hSuff
  have hClle : ∀ g ∈ Cl, g.p_mw ≤ g.p_mw_original :=
    clipGroup_le A r (assignInitial_nonGroup_le net.gens cg r hInit)
  refine ⟨rfl, ?_, ?_⟩
  · intro g hg
    exact freezeGroup_le _ r (redistribute_le Cl E hE0 hClle hEsuff) g hg
  · show totalPSum (freezeGroup (redistribute Cl E) r) = _
    rw [totalPSum_freeze, totalPSum_redistribute Cl E hE0 hEsuff]
    rw [totalPSum_split Cl r, groupPSum_clip A r, groupPSum_assign net.gens cg r,
      hShares, nonGroupPSum_assign_clip net.gens cg r]
    rw [hcg, cappedGeneration]
    ring

/-- First solar unit of the C1 counterexample network: its cached share
(1/2) is larger than its proportional share of nameplate. -/
def genX1 : Gen :=
  { bus := 0, name := "s1", p_mw := 0, min_p_mw := 0, max_p_mw := 0,
    controllable := true, type := "solar", tech := "Solar", cost_per_mw := 0,
    p_mw_original := 10, country := "DE", normed_p_mw := some (1/2),
    scaling := 1, in_service := true, slack := false }

/-- Second solar unit of the C1 counterexample network. -/
def genX2 : Gen :=
  { bus := 0, name := "s2", p_mw := 0, min_p_mw := 0, max_p_mw := 0,
    controllable := true, type := "solar", tech := "Solar", cost_per_mw := 0,
    p_mw_original := 90, country := "DE", normed_p_mw := some (1/2),
    scaling := 1, in_service := true, slack := false }

/-- A third, non-solar unit with spare headroom: the redistribution step
hands part of the clipping excess to it. -/
def genX3 : Gen :=
  { bus := 0, name := "c1", p_mw := 0, min_p_mw := 0, max_p_mw := 0,
    controllable := true, type := "coal", tech := "other", cost_per_mw := 0,
    p_mw_original := 40, country := "DE", normed_p_mw := none,
    scaling := 1, in_service := true, slack := false }

/-- The C1 counterexample network. -/
def netX : Network := { buses := [], gens := [genX1, genX2, genX3], loads := [] }

theorem c1_cx_test :
    (allocate_renewable_generation netX 100 "Solar").1.gens =
      freezeGroup (redistribute
        (clipGroup (assignInitial netX.gens
          (cappedGeneration netX.gens 100 "Solar") "Solar") "Solar")
        (totalExcess (assignInitial netX.gens
          (cappedGeneration netX.gens 100 "Solar") "Solar") "Solar")) "Solar" := rfl

theorem c1_cx_cap : cappedGeneration netX.gens 100 "Solar" = 100 := by
  simp [cappedGeneration, techOrigSum, netX, genX1, genX2, genX3]
  norm_num [min_def]

theorem c1_cx_assign : assignInitial netX.gens 100 "Solar" =
    [{ genX1 with p_mw := 50 }, { genX2 with p_mw := 50 }, genX3] := by
  simp [assignInitial, netX, genX1, genX2, genX3, nval]
  norm_num

theorem c1_cx_excess :
    totalExcess [{ genX1 with p_mw := 50 }, { genX2 with p_mw := 50 }, genX3] "Solar" = 40 := by
  simp [totalExcess, genExcess, genX1, genX2, genX3]
  norm_num [max_def]

theorem c1_cx_clip :
    clipGroup [{ genX1 with p_mw := 50 }, { genX2 with p_mw := 50 }, genX3] "Solar" =
      [{ genX1 with p_mw := 10 }, { genX2 with p_mw := 50 }, genX3] := by
  simp [clipGroup, genExcess, genX1, genX2, genX3]
  norm_num [max_def]

theorem c1_cx_redist :
    redistribute [{ genX1 with p_mw := 10 }, { genX2 with p_mw := 50 }, genX3] 40 =
      [{ genX1 with p_mw := 10 }, { genX2 with p_mw := 70 }, { genX3 with p_mw := 20 }] := by
  simp [redistribute, availableGens, availableHeadroom, genX1, genX2, genX3]
  norm_num

/-- C1 counterexample: on `netX` with observation 100, the headroom of the
whole table (80) absorbs the clipping excess (40), yet the dispatched sum
over the Solar category is 80, not `min(observation, category nameplate)
= 100`: the redistribution step hands 20 MW of the excess to the non-solar
unit. -/
theorem allocate_category_sum_counterexample :
    clipExcessOf netX 100 "Solar" ≤ headroomOf netX 100 "Solar" ∧
    groupPSum (allocate_renewable_generation netX 100 "Solar").1.gens "Solar" ≠
      min 100 (techOrigSum netX.gens "Solar") := by
  have hE : clipExcessOf netX 100 "Solar" = 40 := by
    rw [clipExcessOf, c1_cx_cap, c1_cx_assign, c1_cx_excess]
  have hH : headroomOf netX 100 "Solar" = 80 := by
    rw [headroomOf, c1_cx_cap, c1_cx_assign, c1_cx_clip]
    norm_num [availableHeadroom, availableGens, genX1, genX2, genX3]
  have hfinal : (allocate_renewable_generation netX 100 "Solar").1.gens =
      [{ genX1 with p_mw := 10, min_p_mw := 10, max_p_mw := 10 },
       { genX2 with p_mw := 70, min_p_mw := 70, max_p_mw := 70 },
       { genX3 with p_mw := 20 }] := by
    rw [c1_cx_test, c1_cx_cap, c1_cx_assign, c1_cx_excess, c1_cx_clip, c1_cx_redist]
    simp [freezeGroup, genX1, genX2, genX3]
  have htos : techOrigSum netX.gens "Solar" = 100 := by
    simp [techOrigSum, netX, genX1, genX2, genX3]
    norm_num
  constructor
  · rw [hE, hH]; norm_num
  · rw [hfinal, htos]
    simp [groupPSum, genX1, genX2, genX3]
    norm_num [min_def]

/-- First solar unit of the C1 witness network (proportional shares). -/
def genW1 : Gen :=
  { bus := 0, name := "s1", p_mw := 0, min_p_mw := 0, max_p_mw := 0,
    controllable := true, type := "solar", tech := "Solar", cost_per_mw := 0,
    p_mw_original := 10, country := "DE", normed_p_mw := some (1/10),
    scaling := 1, in_service := true, slack := false }

/-- Second solar unit of the C1 witness network. -/
def genW2 : Gen :=
  { bus := 0, name := "s2", p_mw := 0, min_p_mw := 0, max_p_mw := 0,
    controllable := true, type := "solar", tech := "Solar", cost_per_mw := 0,
    p_mw_original := 90, country := "DE", normed_p_mw := some (9/10),
    scaling := 1, in_service := true, slack := false }

/-- The C1 witness network. -/
def netW : Network := { buses := [], gens := [genW1, genW2], loads := [] }

/-- C1 witness: the amended redistribution theorem applied to `netW` with
observation 50. -/
theorem allocate_caps_bounds_and_total_witness :
    ("Solar" ∈ validRenewables) ∧
    ((netW.gens.filter fun g => g.tech = "Solar").map nval).sum = 1 ∧
    (∀ g ∈ netW.gens, g.p_mw ≤ g.p_mw_original) ∧
    clipExcessOf netW 50 "Solar" ≤ headroomOf netW 50 "Solar" ∧
    ((allocate_renewable_generation netW 50 "Solar").2 = none ∧
     (∀ g ∈ (allocate_renewable_generation netW 50 "Solar").1.gens,
        g.p_mw ≤ g.p_mw_original) ∧
     totalPSum (allocate_renewable_generation netW 50 "Solar").1.gens =
       nonGroupPSum netW.gens "Solar" + min 50 (techOrigSum netW.gens "Solar")) := by
  have h1 : "Solar" ∈ validRenewables := by decide
  have h2 : ((netW.gens.filter fun g => g.tech = "Solar").map nval).sum = 1 := by
    simp [netW, genW1, genW2, nval]
    norm_num
  have h3 : ∀ g ∈ netW.gens, g.p_mw ≤ g.p_mw_original := by
    intro g hg
    simp [netW] at hg
    rcases hg with rfl | rfl <;> simp [genW1, genW2]
  have hcap : cappedGeneration netW.gens 50 "Solar" = 50 := by
    simp [cappedGeneration, techOrigSum, netW, genW1, genW2]
    norm_num [min_def]
  have hassign : assignInitial netW.gens 50 "Solar" =
      [{ genW1 with p_mw := 5 }, { genW2 with p_mw := 45 }] := by
    simp [assignInitial, netW, genW1, genW2, nval]
    norm_num
  have h4 : clipExcessOf netW 50 "Solar" ≤ headroomOf netW 50 "Solar" := by
    have hE : clipExcessOf netW 50 "Solar" = 0 := by
      rw [clipExcessOf, hcap, hassign]
      simp [totalExcess, genExcess, genW1, genW2]
      norm_num [max_def]
    have hCl : clipGroup [{ genW1 with p_mw := 5 }, { genW2 with p_mw := 45 }] "Solar" =
        [{ genW1 with p_mw := 5 }, { genW2 with p_mw := 45 }] := by
      simp [clipGroup, genExcess, genW1, genW2]
      norm_num [max_def]
    have hH : headroomOf netW 50 "Solar" = 50 := by
      rw [headroomOf, hcap, hassign, hCl]
      norm_num [availableHeadroom, availableGens, genW1, genW2]
    rw [hE, hH]
    norm_num
  exact ⟨h1, h2, h3, h4, allocate_caps_bounds_and_total netW 50 "Solar" h1 h2 h3 h4⟩


/-- Empty network used to exercise the validation path of the
redistribution engine. -/
def netV : Network := { buses := [], gens := [], loads := [] }

/-- C10: `allocate_renewable_generation` raises its ValueError exactly when
the technology argument is not one of "Solar", "onwind", "offwind",
"wind"; on that error path the network is returned untouched, because the
validation precedes every mutation. -/
theorem allocate_invalid_tech_error_iff (net : Network) (cg0 : ℚ) (r : String) :
    ((allocate_renewable_generation net cg0 r).2.isSome ↔ r ∉ validRenewables) ∧
    (r ∉ validRenewables → (allocate_renewable_generation net cg0 r).1 = net) := by
  by_cases h : r ∉ validRenewables
  · rw [allocate_renewable_generation, if_pos h]
    simp [h]
  · rw [allocate_renewable_generation, if_neg h]
    simp [h]

/-- C10 witness: the lowercase string "solar" is rejected (the check is
case-sensitive) and the empty network comes back unchanged. -/
theorem allocate_invalid_tech_error_iff_witness :
    (allocate_renewable_generation netV 5 "solar").2.isSome ∧
    (allocate_renewable_generation netV 5 "solar").1 = netV := by
  have hmem : "solar" ∉ validRenewables := by decide
  exact ⟨(allocate_invalid_tech_error_iff netV 5 "solar").1.mpr hmem,
    (allocate_invalid_tech_error_iff netV 5 "solar").2 hmem⟩

/-- Network used to evaluate the fallback protocol at fixed outcome
sequences. -/
def netF : Network := { buses := [], gens := [], loads := [] }

/-- C2 (code bug): outcome sequence in which the stage-1 plain AC power
flow succeeds and every later solve fails.  The claim (and spec) say the
controller stops at the first successful stage, so no DC OPF stage should
run; the source however discards the stage-1 result of
`handle_pf_results("ac_pf", ...)` and resets `converged = False`
unconditionally (lines 437-441), so all five stages and the scaling retry
still run, and every relaxation mutation is applied. -/
theorem fallback_stage1_success_still_runs_dc_opf :
    (fallbackProtocol (fun n => n == 0) netF).attempts =
      [Attempt.acPF, Attempt.dcOPF1, Attempt.dcOPF2, Attempt.dcOPF3,
       Attempt.dcOPF4, Attempt.acPFScaled] ∧
    Attempt.dcOPF1 ∈ (fallbackProtocol (fun n => n == 0) netF).attempts ∧
    (fallbackProtocol (fun n => n == 0) netF).mutations ≠ [] ∧
    (fallbackProtocol (fun n => n == 0) netF).converged = false := by
  refine ⟨?_, ?_, ?_, ?_⟩ <;>
    simp [fallbackProtocol, netF, relaxNonRenewableGens, relaxAllControllable,
      curtailNetLoads, applyScalingFactor]

/-- C7 counterexample: when all five stages fail, the controller does not
stop after reporting: section 7.1.3 applies a further mutation (the
scaling factor) and issues a sixth solve attempt, contradicting "applies
no further relaxations or solve attempts beyond the five specified
stages". -/
theorem fallback_stage5_failure_extra_attempt :
    Attempt.acPFScaled ∈ (fallbackProtocol (fun _ => false) netF).attempts ∧
    Mutation.applyScaling ∈ (fallbackProtocol (fun _ => false) netF).mutations := by
  constructor <;>
    simp [fallbackProtocol, netF, relaxNonRenewableGens, relaxAllControllable,
      curtailNetLoads, applyScalingFactor]

/-- C7 (amended): if stages 2-5 all fail (stage 1's outcome is discarded by
the source), the controller reports non-convergence with the diagnostic
path, terminates with `converged = false` rather than crashing, and
performs exactly one further step beyond the five stages: the
scaling-factor mutation of section 7.1.3 followed by a single additional
AC power flow attempt. -/
theorem fallback_all_fail_reports_and_single_scaled_retry
    (oracle : ℕ → Bool) (net : Network)
    (h1 : oracle 1 = false) (h2 : oracle 2 = false)
    (h3 : oracle 3 = false) (h4 : oracle 4 = false) :
    (fallbackProtocol oracle net).diagnostics = true ∧
    (fallbackProtocol oracle net).converged = false ∧
    (fallbackProtocol oracle net).attempts =
      [Attempt.acPF, Attempt.dcOPF1, Attempt.dcOPF2, Attempt.dcOPF3,
       Attempt.dcOPF4, Attempt.acPFScaled] ∧
    (fallbackProtocol oracle net).mutations =
      [Mutation.relaxNonRenewable, Mutation.relaxAll, Mutation.curtailLoads,
       Mutation.applyScaling] ∧
    (fallbackProtocol oracle net).net =
      applyScalingFactor (curtailNetLoads (relaxAllControllable
        (relaxNonRenewableGens net))) := by
  refine ⟨?_, ?_, ?_, ?_, ?_⟩ <;> simp [fallbackProtocol, h1, h2, h3, h4]

/-- C7 witness: the amended theorem applied to the all-fail outcome
sequence on a concrete network. -/
theorem fallback_all_fail_reports_and_single_scaled_retry_witness :
    ((fun _ : ℕ => false) 1 = false) ∧
    ((fallbackProtocol (fun _ => false) netF).diagnostics = true ∧
     (fallbackProtocol (fun _ => false) netF).converged = false ∧
     (fallbackProtocol (fun _ => false) netF).attempts =
       [Attempt.acPF, Attempt.dcOPF1, Attempt.dcOPF2, Attempt.dcOPF3,
        Attempt.dcOPF4, Attempt.acPFScaled] ∧
     (fallbackProtocol (fun _ => false) netF).mutations =
       [Mutation.relaxNonRenewable, Mutation.relaxAll, Mutation.curtailLoads,
        Mutation.applyScaling] ∧
     (fallbackProtocol (fun _ => false) netF).net =
       applyScalingFactor (curtailNetLoads (relaxAllControllable
         (relaxNonRenewableGens netF)))) :=
  ⟨rfl, fallback_all_fail_reports_and_single_scaled_retry
    (fun _ => false) netF rfl rfl rfl rfl⟩


lemma nearestIdxAux_ne_none (q : ℚ × ℚ) :
    ∀ (pts : List (ℚ × ℚ)) (k : ℕ), pts ≠ [] → nearestIdxAux q pts k ≠ none := by
  intro pts k hne
  cases pts with
  | nil => exact absurd rfl hne
  | cons a t =>
    rw [nearestIdxAux]
    cases h : nearestIdxAux q t (k + 1) with
    | none => simp
    | some jd => simp only [h]; split <;> simp

lemma nearestIdxAux_spec (q : ℚ × ℚ) :
    ∀ (pts : List (ℚ × ℚ)) (k j : ℕ) (d : ℚ),
      nearestIdxAux q pts k = some (j, d) →
      k ≤ j ∧ (∃ p₀, pts[j - k]? = some p₀ ∧ sqDist p₀ q = d) ∧
        ∀ p ∈ pts, d ≤ sqDist p q := by
  intro pts
  induction pts with
  | nil => intro k j d h; simp [nearestIdxAux] at h
  | cons p rest ih =>
    intro k j d h
    rw [nearestIdxAux] at h
    cases haux : nearestIdxAux q rest (k + 1) with
    | none =>
      rw [haux] at h
      have hrest : rest = [] := by
        by_contra hne
        exact nearestIdxAux_ne_none q rest (k + 1) hne haux
      subst hrest
      change some (k, sqDist p q) = some (j, d) at h
      simp at h
      obtain ⟨rfl, rfl⟩ := h
      exact ⟨le_refl _, ⟨p, by simp, rfl⟩, by simp⟩
    | some jd =>
      obtain ⟨j', d'⟩ := jd
      rw [haux] at h
      change (if sqDist p q ≤ d' then some (k, sqDist p q) else some (j', d')) =
        some (j, d) at h
      obtain ⟨hk', ⟨p₀, hp₀, hd'⟩, hall⟩ := ih (k + 1) j' d' haux
      by_cases hle : sqDist p q ≤ d'
      · rw [if_pos hle] at h
        simp at h
        obtain ⟨rfl, rfl⟩ := h
        refine ⟨le_refl _, ⟨p, by simp, rfl⟩, ?_⟩
        intro x hx
        rcases List.mem_cons.mp hx with rfl | hx
        · exact le_refl _
        · exact le_trans hle (hall x hx)
      · rw [if_neg hle] at h
        simp at h
        obtain ⟨rfl, rfl⟩ := h
        have hjk : k ≤ j' := le_trans (Nat.le_succ k) hk'
        refine ⟨hjk, ⟨p₀, ?_, hd'⟩, ?_⟩
        · have harith : j' - k = (j' - (k + 1)) + 1 := by omega
          rw [harith]
          simpa using hp₀
        · intro x hx
          rcases List.mem_cons.mp hx with rfl | hx
          · exact le_of_not_le hle
          · exact hall x hx

lemma nearestBusIn_mem (cand : List Bus) (q : ℚ × ℚ) (b : Bus)
    (h : nearestBusIn cand q = some b) : b ∈ cand := by
  rw [nearestBusIn, nearestIdx] at h
  cases haux : nearestIdxAux q (cand.map fun b => (b.x, b.y)) 0 with
  | none => rw [haux] at h; simp at h
  | some jd =>
    rw [haux] at h
    simp at h
    exact List.getElem?_mem h

lemma nearestBusIn_spec (cand : List Bus) (q : ℚ × ℚ) (b : Bus)
    (h : nearestBusIn cand q = some b) :
    b ∈ cand ∧ ∀ b' ∈ cand, sqDist (b.x, b.y) q ≤ sqDist (b'.x, b'.y) q := by
  refine ⟨nearestBusIn_mem cand q b h, ?_⟩
  rw [nearestBusIn, nearestIdx] at h
  cases haux : nearestIdxAux q (cand.map fun b => (b.x, b.y)) 0 with
  | none => rw [haux] at h; simp at h
  | some jd =>
    obtain ⟨j, d⟩ := jd
    rw [haux] at h
    simp at h
    obtain ⟨-, ⟨p₀, hp₀, hd⟩, hall⟩ := nearestIdxAux_spec q _ 0 j d haux
    rw [Nat.sub_zero, List.getElem?_map, h] at hp₀
    simp at hp₀
    intro b' hb'
    have hmem : (b'.x, b'.y) ∈ cand.map fun b => (b.x, b.y) :=
      List.mem_map_of_mem _ hb'
    have hle := hall _ hmem
    rw [hp₀, hd]
    exact hle

lemma realCountryBuses_subset (net : Network) (zone : String) :
    ∀ b ∈ realCountryBuses net zone, b ∈ net.buses := by
  intro b hb
  exact List.mem_of_mem_filter (List.mem_of_mem_filter hb)

/-- C3 (amended): an asset whose zone has no in-service real-substation
candidate bus makes `create_gen_or_load` abort with the empty-index
failure: the nearest-neighbor structure is built and queried over the
empty candidate set and the subsequent positional lookup fails (an
IndexError in the source); no `NoEligibleBusError` guard exists. -/
theorem resolver_empty_zone_index_error (net : Network) (e : Element)
    (Type_ : String) (dg dl : Bool)
    (h : realCountryBuses net e.zone = []) :
    create_gen_or_load [e] Type_ net dg dl =
      Except.error ResolveError.emptyIndexQuery := by
  have hW : busesWithinPolygon net e = [] := by
    rw [busesWithinPolygon, h]
    rfl
  have hres : resolveClosestBus net e = Except.error ResolveError.emptyIndexQuery := by
    rw [resolveClosestBus]
    simp [hW, h, nearestBusIn, nearestIdx, nearestIdxAux]
  rw [create_gen_or_load]
  simp [processElement, hres]

/-- The bus of the C3 network: its zone does not match the asset's. -/
def busC3 : Bus :=
  { idx := 0, name := "way123", zone := "FR", vn_kv := 110, in_service := true,
    x := 0, y := 0 }

/-- C3 network: no bus of zone "DE" at all. -/
def netC3 : Network := { buses := [busC3], gens := [], loads := [] }

/-- C3 asset in zone "DE". -/
def eC3 : Element :=
  { geometry := { containsPt := fun _ => true, centroid := (0, 0) },
    zone := "DE", capacity := 5, fueltype := "coal", technology := "coal",
    name := "plant", id := "plant", load_factor := 0,
    adjusted_marginal_price := none }

/-- C3 counterexample: for a concrete asset whose zone has no eligible
candidate bus, the resolver does not fail with a `NoEligibleBusError`
before querying (no such guard or error class exists in the source); it
reaches the nearest-neighbor query on the empty candidate index and
aborts with the empty-index failure of that query. -/
theorem resolver_queries_empty_index_counterexample :
    realCountryBuses netC3 eC3.zone = [] ∧
    nearestBusIn (realCountryBuses netC3 eC3.zone) eC3.geometry.centroid = none ∧
    resolveClosestBus netC3 eC3 = Except.error ResolveError.emptyIndexQuery := by
  have h : realCountryBuses netC3 eC3.zone = [] := by
    simp [realCountryBuses, countryBuses, netC3, eC3, busC3]
  refine ⟨h, ?_, ?_⟩
  · rw [h]
    rfl
  · rw [resolveClosestBus]
    have hW : busesWithinPolygon netC3 eC3 = [] := by
      rw [busesWithinPolygon, h]
      rfl
    simp [hW, h, nearestBusIn, nearestIdx, nearestIdxAux]

/-- C3 witness: the amended theorem applied to the concrete empty-zone
instance. -/
theorem resolver_empty_zone_index_error_witness :
    realCountryBuses netC3 eC3.zone = [] ∧
    create_gen_or_load [eC3] "gen" netC3 false false =
      Except.error ResolveError.emptyIndexQuery := by
  have h : realCountryBuses netC3 eC3.zone = [] := by
    simp [realCountryBuses, countryBuses, netC3, eC3, busC3]
  exact ⟨h, resolver_empty_zone_index_error netC3 eC3 "gen" false false h⟩


lemma resolveClosestBus_mem (net : Network) (e : Element) (c0 : ℕ)
    (hres : resolveClosestBus net e = Except.ok c0) :
    ∃ b ∈ net.buses, b.idx = c0 := by
  rw [resolveClosestBus] at hres
  by_cases hW : (busesWithinPolygon net e).isEmpty
  · rw [if_pos hW] at hres
    cases hnb : nearestBusIn (realCountryBuses net e.zone) e.geometry.centroid with
    | none => rw [hnb] at hres; simp at hres
    | some b =>
      rw [hnb] at hres
      simp at hres
      exact ⟨b, realCountryBuses_subset net e.zone b
        (nearestBusIn_mem _ _ _ hnb), hres⟩
  · rw [if_neg hW] at hres
    dsimp only at hres
    cases hnb : nearestBusIn
        ((busesWithinPolygon net e).filter fun b =>
          b.vn_kv = (((busesWithinPolygon net e).map Bus.vn_kv).min?).getD 0)
        e.geometry.centroid with
    | none => rw [hnb] at hres; simp at hres
    | some b =>
      rw [hnb] at hres
      simp at hres
      have hb1 : b ∈ busesWithinPolygon net e :=
        List.mem_of_mem_filter (nearestBusIn_mem _ _ _ hnb)
      exact ⟨b, realCountryBuses_subset net e.zone b
        (List.mem_of_mem_filter hb1), hres⟩

/-- C5: the technology-indexed flexibility table: nuclear 50-100 % of
nameplate, wind/solar 0-100 %, hydro/storage 10-100 %, geothermal
60-100 %, default 20-100 % (for positive nameplate); the computed range is
invalid exactly for non-positive nameplate, and in that case the created
generator record gets `min_p_mw = max_p_mw = 0` while remaining bound to a
bus of the network, with its nameplate kept in `p_mw`/`p_mw_original`. -/
theorem power_limits_table_and_invalid_forces_zero :
    (∀ q : ℚ, 0 < q →
      calculate_power_limits "nuclear" q = some (q * 0.50, q * 1.00) ∧
      calculate_power_limits "wind" q = some (0.00, q * 1.00) ∧
      calculate_power_limits "solar" q = some (0.00, q * 1.00) ∧
      calculate_power_limits "hydro" q = some (q * 0.10, q * 1.00) ∧
      calculate_power_limits "PHS" q = some (q * 0.10, q * 1.00) ∧
      calculate_power_limits "ror" q = some (q * 0.10, q * 1.00) ∧
      calculate_power_limits "geothermal" q = some (q * 0.60, q * 1.00)) ∧
    (∀ f : String, ∀ q : ℚ, 0 < q →
      f ∉ ["nuclear", "coal", "lignite", "CCGT", "OCGT", "biomass", "waste",
        "oil", "hydro", "PHS", "ror", "wind", "solar", "geothermal"] →
      calculate_power_limits f q = some (q * 0.20, q * 1.00)) ∧
    (∀ (f : String) (q : ℚ), calculate_power_limits f q = none ↔ q ≤ 0) ∧
    (∀ (net : Network) (e : Element) (dg : Bool) (net' : Network),
      create_gen_or_load [e] "gen" net dg false = Except.ok net' →
      calculate_power_limits e.fueltype e.capacity = none →
      ∃ rec b, net'.gens = net.gens ++ [rec] ∧ rec.min_p_mw = 0 ∧
        rec.max_p_mw = 0 ∧ rec.p_mw = e.capacity ∧
        rec.p_mw_original = e.capacity ∧ b ∈ net.buses ∧ rec.bus = b.idx) := by
  refine ⟨?_, ?_, ?_, ?_⟩
  · intro q hq
    refine ⟨?_, ?_, ?_, ?_, ?_, ?_, ?_⟩ <;>
      simp [calculate_power_limits] <;> constructor <;> nlinarith
  · intro f q hq hf
    simp at hf
    obtain ⟨h1, h2, h3, h4, h5, h6, h7, h8, h9, h10, h11, h12, h13, h14⟩ := hf
    simp [calculate_power_limits, h1, h2, h3, h4, h5, h6, h7, h8, h9, h10,
      h11, h12, h13, h14]
    constructor <;> nlinarith
  · intro f q
    rw [calculate_power_limits]
    split_ifs <;> rename_i hv <;>
      first
        | (constructor
           · intro _
             rcases hv with h | h <;> dsimp only at h <;> nlinarith
           · intro _
             rfl)
        | (constructor
           · intro h
             exact absurd h (by simp)
           · intro hq
             exfalso
             push_neg at hv
             obtain ⟨hv1, hv2⟩ := hv
             dsimp only at hv1 hv2
             nlinarith)
  · intro net e dg net' hrun hnone
    rw [create_gen_or_load] at hrun
    cases hpe : processElement net e "gen" dg false with
    | error err => rw [hpe] at hrun; simp at hrun
    | ok net1 =>
      rw [hpe] at hrun
      simp at hrun
      rw [create_gen_or_load] at hrun
      simp at hrun
      subst hrun
      simp only [processElement] at hpe
      cases hres : resolveClosestBus net e with
      | error err => rw [hres] at hpe; simp at hpe
      | ok c0 =>
        rw [hres] at hpe
        simp only [hnone, Option.isSome_none, Bool.false_eq_true, if_false,
          if_true, reduceIte] at hpe
        by_cases hdg : dg = true
        · rw [if_pos hdg] at hpe
          cases hnb : nearestBusIn (countryBuses net e.zone) e.geometry.centroid with
          | none => rw [hnb] at hpe; simp at hpe
          | some b =>
            rw [hnb] at hpe
            simp at hpe
            refine ⟨mkGenRecord e b.idx 0 0 (e.adjusted_marginal_price.getD 0), b,
              ?_, by simp [mkGenRecord], by simp [mkGenRecord],
              by simp [mkGenRecord], by simp [mkGenRecord],
              List.mem_of_mem_filter (nearestBusIn_mem _ _ _ hnb),
              by simp [mkGenRecord]⟩
            rw [← hpe]
        · rw [if_neg hdg] at hpe
          simp at hpe
          obtain ⟨b, hb, hbidx⟩ := resolveClosestBus_mem net e c0 hres
          refine ⟨mkGenRecord e c0 0 0 (e.adjusted_marginal_price.getD 0), b,
            ?_, by simp [mkGenRecord], by simp [mkGenRecord],
            by simp [mkGenRecord], by simp [mkGenRecord], hb,
            by simp [mkGenRecord, hbidx]⟩
          rw [← hpe]

/-- The single real-substation bus of the C5 witness network. -/
def busR : Bus :=
  { idx := 7, name := "way9", zone := "DE", vn_kv := 110, in_service := true,
    x := 1, y := 2 }

/-- The C5 witness network. -/
def netR : Network := { buses := [busR], gens := [], loads := [] }

/-- The C5 witness asset: a generator with nameplate 0, whose computed
range is invalid. -/
def eR : Element :=
  { geometry := { containsPt := fun _ => true, centroid := (0, 0) },
    zone := "DE", capacity := 0, fueltype := "coal", technology := "coal",
    name := "p0", id := "p0", load_factor := 0,
    adjusted_marginal_price := none }

/-- C5 witness: the table and invalid-range parts of the theorem applied
at concrete inputs, and the record part applied to a concrete run in which
the invalid range forces `min_p_mw = max_p_mw = 0` on a unit still bound
to bus 7. -/
theorem power_limits_table_and_invalid_forces_zero_witness :
    calculate_power_limits "nuclear" 4 = some (4 * 0.50, 4 * 1.00) ∧
    (calculate_power_limits "coal" 0 = none ↔ (0 : ℚ) ≤ 0) ∧
    (∃ rec b,
      ({ netR with gens := netR.gens ++ [mkGenRecord eR 7 0 0 0] } : Network).gens =
        netR.gens ++ [rec] ∧ rec.min_p_mw = 0 ∧ rec.max_p_mw = 0 ∧
      rec.p_mw = eR.capacity ∧ rec.p_mw_original = eR.capacity ∧
      b ∈ netR.buses ∧ rec.bus = b.idx) := by
  obtain ⟨htab, -, hiff, hrec⟩ := power_limits_table_and_invalid_forces_zero
  have hlims : calculate_power_limits "coal" 0 = none := by
    simp [calculate_power_limits]
  have hres : resolveClosestBus netR eR = Except.ok 7 := rfl
  have hrun : create_gen_or_load [eR] "gen" netR false false =
      Except.ok { netR with gens := netR.gens ++ [mkGenRecord eR 7 0 0 0] } := by
    rw [create_gen_or_load]
    have hpe : processElement netR eR "gen" false false =
        Except.ok { netR with gens := netR.gens ++ [mkGenRecord eR 7 0 0 0] } := by
      simp only [processElement, hres]
      simp [hlims, eR]
    rw [hpe]
    simp [create_gen_or_load]
  exact ⟨(htab 4 (by norm_num)).1, hiff "coal" 0,
    hrec netR eR false _ hrun hlims⟩


lemma sum_map_const_q {α : Type} (l : List α) (c : ℚ) :
    (l.map fun _ => c).sum = l.length * c := by
  induction l with
  | nil => simp
  | cons a t ih => simp [ih]; ring

/-- C6: in even-distribution override mode, a polygon load is split as
`demand / N` over the `N` real-substation buses inside the polygon and the
appended shares sum exactly to the demand; when no real substation lies
inside the polygon, the full demand goes to a single real substation of
the zone at minimal distance to the polygon centroid. -/
theorem polygon_load_distribution_exact (net : Network) (e : Element)
    (net' : Network)
    (hrun : create_gen_or_load [e] "load" net false true = Except.ok net') :
    (busesWithinPolygon net e ≠ [] →
      net'.loads = net.loads ++ (busesWithinPolygon net e).map (fun b =>
        { bus := b.idx, name := e.id,
          p_mw := e.load_factor / ((busesWithinPolygon net e).length : ℚ),
          controllable := false, num := some (busesWithinPolygon net e).length,
          min_p_mw := none, max_p_mw := none, in_service := true }) ∧
      ((net'.loads.drop net.loads.length).map Load.p_mw).sum = e.load_factor) ∧
    (busesWithinPolygon net e = [] →
      ∃ b, net'.loads = net.loads ++
          [{ bus := b.idx, name := e.id, p_mw := e.load_factor,
             controllable := false, num := some 1, min_p_mw := none,
             max_p_mw := none, in_service := true }] ∧
        b ∈ realCountryBuses net e.zone ∧
        ∀ b' ∈ realCountryBuses net e.zone,
          sqDist (b.x, b.y) e.geometry.centroid ≤
            sqDist (b'.x, b'.y) e.geometry.centroid) := by
  rw [create_gen_or_load] at hrun
  cases hpe : processElement net e "load" false true with
  | error err => rw [hpe] at hrun; simp at hrun
  | ok net1 =>
    rw [hpe] at hrun
    simp at hrun
    rw [create_gen_or_load] at hrun
    simp at hrun
    subst hrun
    simp only [processElement] at hpe
    cases hres : resolveClosestBus net e with
    | error err => rw [hres] at hpe; simp at hpe
    | ok c0 =>
      rw [hres] at hpe
      simp at hpe
      constructor
      · intro hne
        rw [if_neg hne] at hpe
        simp at hpe
        rw [← hpe]
        refine ⟨by simp, ?_⟩
        simp only [List.drop_left]
        rw [List.map_map]
        have hcongr : (Load.p_mw ∘ fun b : Bus =>
            ({ bus := b.idx, name := e.id,
               p_mw := e.load_factor / ((busesWithinPolygon net e).length : ℚ),
               controllable := false, num := some (busesWithinPolygon net e).length,
               min_p_mw := none, max_p_mw := none, in_service := true } : Load)) =
            fun _ => e.load_factor / ((busesWithinPolygon net e).length : ℚ) := by
          funext b
          rfl
        rw [hcongr, sum_map_const_q]
        have hlen : ((busesWithinPolygon net e).length : ℚ) ≠ 0 := by
          simpa using hne
        field_simp
      · intro hW
        rw [if_pos hW] at hpe
        simp at hpe
        rw [resolveClosestBus] at hres
        have hWe : (busesWithinPolygon net e).isEmpty = true := by simp [hW]
        rw [if_pos hWe] at hres
        cases hnb : nearestBusIn (realCountryBuses net e.zone)
            e.geometry.centroid with
        | none => rw [hnb] at hres; simp at hres
        | some b =>
          rw [hnb] at hres
          simp at hres
          obtain ⟨hbmem, hbmin⟩ := nearestBusIn_spec _ _ _ hnb
          refine ⟨b, ?_, hbmem, hbmin⟩
          rw [← hpe]
          simp [hres]

/-- First real substation inside the C6 witness polygon. -/
def busL1 : Bus :=
  { idx := 1, name := "way1", zone := "DE", vn_kv := 110, in_service := true,
    x := 0, y := 0 }

/-- Second real substation inside the C6 witness polygon. -/
def busL2 : Bus :=
  { idx := 2, name := "relation2", zone := "DE", vn_kv := 220, in_service := true,
    x := 10, y := 0 }

/-- The C6 witness network. -/
def netL : Network := { buses := [busL1, busL2], gens := [], loads := [] }

/-- The C6 witness load region: both substations fall inside it, demand 10. -/
def eL : Element :=
  { geometry := { containsPt := fun _ => true, centroid := (0, 0) },
    zone := "DE", capacity := 0, fueltype := "", technology := "",
    name := "L", id := "L", load_factor := 10,
    adjusted_marginal_price := none }

/-- The network after distributing the C6 witness load: 5 MW on each bus. -/
def netLd : Network :=
  { netL with loads :=
    [{ bus := 1, name := "L", p_mw := 5, controllable := false, num := some 2,
       min_p_mw := none, max_p_mw := none, in_service := true },
     { bus := 2, name := "L", p_mw := 5, controllable := false, num := some 2,
       min_p_mw := none, max_p_mw := none, in_service := true }] }

theorem c6_wit_buses : busesWithinPolygon netL eL = [busL1, busL2] := by
  simp [busesWithinPolygon, realCountryBuses, countryBuses, isRealSubstation,
    netL, eL, busL1, busL2, strStartsWith]

theorem c6_wit_res : resolveClosestBus netL eL = Except.ok 1 := by
  rw [resolveClosestBus]
  rw [c6_wit_buses]
  simp [nearestBusIn, nearestIdx, nearestIdxAux, sqDist, busL1, busL2, eL]
  norm_num

theorem c6_wit_run :
    create_gen_or_load [eL] "load" netL false true = Except.ok netLd := by
  rw [create_gen_or_load]
  have hpe : processElement netL eL "load" false true = Except.ok netLd := by
    simp only [processElement, c6_wit_res]
    rw [c6_wit_buses]
    simp [netLd, netL, eL, busL1, busL2]
    norm_num
  rw [hpe]
  simp [create_gen_or_load]

/-- C6 witness: the distribution theorem applied to a concrete two-bus
polygon: each bus receives 10/2 = 5 MW and the shares sum to the full
10 MW demand. -/
theorem polygon_load_distribution_exact_witness :
    busesWithinPolygon netL eL ≠ [] ∧
    netLd.loads = netL.loads ++ (busesWithinPolygon netL eL).map (fun b =>
      { bus := b.idx, name := eL.id,
        p_mw := eL.load_factor / ((busesWithinPolygon netL eL).length : ℚ),
        controllable := false, num := some (busesWithinPolygon netL eL).length,
        min_p_mw := none, max_p_mw := none, in_service := true }) ∧
    ((netLd.loads.drop netL.loads.length).map Load.p_mw).sum = eL.load_factor := by
  have hne : busesWithinPolygon netL eL ≠ [] := by
    rw [c6_wit_buses]
    simp
  obtain ⟨h1, h2⟩ :=
    (polygon_load_distribution_exact netL eL netLd c6_wit_run).1 hne
  exact ⟨hne, h1, h2⟩


/-- The `categories` dictionary of `create_values_per_country`, in its
iteration order. -/
def categories : List (String × Col) :=
  [("solar", Col.type), ("wind", Col.type), ("onwind", Col.tech), ("offwind", Col.tech)]

/-- The rows of a (country, category) group. -/
def countryGroup (gens : List Gen) (country key : String) (col : Col) : List Gen :=
  gens.filter fun g => g.country = country ∧ colVal col g = key

/-- One normalization write as a per-row function. -/
def applyCatWrite (country key : String) (col : Col) (t : ℚ) (g : Gen) : Gen :=
  if 0 < t ∧ (g.country = country ∧ colVal col g = key) then
    { g with normed_p_mw := some (g.p_mw_original / t) }
  else g

/-- The four normalization writes of one country pass, as a per-row
function (solar, wind, onwind, offwind, in order). -/
def applyCats (t : Totals) (country : String) (g : Gen) : Gen :=
  applyCatWrite country "offwind" Col.tech t.offwind
    (applyCatWrite country "onwind" Col.tech t.onwind
      (applyCatWrite country "wind" Col.type t.wind
        (applyCatWrite country "solar" Col.type t.solar g)))

/-- A row's `normed_p_mw` stripped, to express that the normalizer touches
nothing else. -/
def dropNormed (g : Gen) : Gen := { g with normed_p_mw := none }

lemma writeCat_eq_map (gens : List Gen) (country key : String) (col : Col) (t : ℚ) :
    writeCat gens country key col t = gens.map (applyCatWrite country key col t) := by
  by_cases ht : 0 < t
  · rw [writeCat, if_pos ht]
    apply List.map_congr_left
    intro g _
    by_cases h : g.country = country ∧ colVal col g = key
    · simp [applyCatWrite, h, ht]
    · simp [applyCatWrite, h, ht]
  · rw [writeCat, if_neg ht]
    have : ∀ g ∈ gens, applyCatWrite country key col t g = g := by
      intro g _
      simp [applyCatWrite, ht]
    rw [List.map_congr_left this]
    simp

lemma processCountry_gens_eq (gens : List Gen) (c : String) :
    (processCountry gens c).1 =
      gens.map (applyCats (totalsOf gens (remapUK c)) (remapUK c)) := by
  rw [processCountry]
  simp only [writeCat_eq_map, List.map_map]
  rfl

lemma applyCatWrite_static (country key : String) (col : Col) (t : ℚ) (g : Gen) :
    (applyCatWrite country key col t g).p_mw_original = g.p_mw_original ∧
    (applyCatWrite country key col t g).type = g.type ∧
    (applyCatWrite country key col t g).tech = g.tech ∧
    (applyCatWrite country key col t g).country = g.country := by
  rw [applyCatWrite]
  split_ifs <;> simp

lemma applyCats_static (t : Totals) (c : String) (g : Gen) :
    (applyCats t c g).p_mw_original = g.p_mw_original ∧
    (applyCats t c g).type = g.type ∧
    (applyCats t c g).tech = g.tech ∧
    (applyCats t c g).country = g.country := by
  rw [applyCats, applyCatWrite, applyCatWrite, applyCatWrite, applyCatWrite]
  split_ifs <;> simp

lemma applyCats_other (t : Totals) (c : String) (g : Gen) (h : g.country ≠ c) :
    applyCats t c g = g := by
  rw [applyCats]
  rw [show applyCatWrite c "solar" Col.type t.solar g = g by
    simp [applyCatWrite]; intro _ hc; exact absurd hc h]
  rw [show applyCatWrite c "wind" Col.type t.wind g = g by
    simp [applyCatWrite]; intro _ hc; exact absurd hc h]
  rw [show applyCatWrite c "onwind" Col.tech t.onwind g = g by
    simp [applyCatWrite]; intro _ hc; exact absurd hc h]
  rw [show applyCatWrite c "offwind" Col.tech t.offwind g = g by
    simp [applyCatWrite]; intro _ hc; exact absurd hc h]

lemma filter_map_pres (l : List Gen) (f : Gen → Gen) (p : Gen → Bool)
    (hf : ∀ g, p (f g) = p g) : (l.map f).filter p = (l.filter p).map f := by
  induction l with
  | nil => simp
  | cons a t ih => by_cases h : p a <;> simp [h, hf, ih]

lemma colVal_applyCats (col : Col) (t : Totals) (c : String) (g : Gen) :
    colVal col (applyCats t c g) = colVal col g := by
  cases col
  · exact (applyCats_static t c g).2.1
  · exact (applyCats_static t c g).2.2.1

lemma catTotal_map_applyCats (gens : List Gen) (t : Totals) (c' c key : String)
    (col : Col) :
    catTotal (gens.map (applyCats t c')) c key col = catTotal gens c key col := by
  rw [catTotal, catTotal]
  rw [filter_map_pres]
  · rw [List.map_map]
    congr 1
    apply List.map_congr_left
    intro g _
    exact (applyCats_static t c' g).1
  · intro g
    have h1 := (applyCats_static t c' g).2.2.2
    have h2 := colVal_applyCats col t c' g
    simp [h1, h2]

lemma totalsOf_map_applyCats (gens : List Gen) (t : Totals) (c' c : String) :
    totalsOf (gens.map (applyCats t c')) c = totalsOf gens c := by
  rw [totalsOf, totalsOf]
  simp [catTotal_map_applyCats]

lemma recomputeCountries_gens_eq (cs : List String) :
    ∀ (gens : List Gen) (cache : List (String × Totals)),
      (cs.map remapUK).Nodup →
      (recomputeCountries gens cs cache).1 =
        gens.map (fun g =>
          if g.country ∈ cs.map remapUK then
            applyCats (totalsOf gens g.country) g.country g
          else g) := by
  induction cs with
  | nil =>
    intro gens cache _
    simp [recomputeCountries]
  | cons c cs ih =>
    intro gens cache hnd
    simp only [List.map_cons, List.nodup_cons] at hnd
    obtain ⟨hnotin, hnd2⟩ := hnd
    simp only [recomputeCountries]
    rw [ih _ _ hnd2, processCountry_gens_eq, List.map_map]
    apply List.map_congr_left
    intro g _
    have hcg : (applyCats (totalsOf gens (remapUK c)) (remapUK c) g).country =
      g.country := (applyCats_static _ _ _).2.2.2
    by_cases hgc : g.country = remapUK c
    · have hnot : g.country ∉ cs.map remapUK := by rw [hgc]; exact hnotin
      simp only [Function.comp_apply]
      rw [if_neg (by rw [hcg]; exact hnot)]
      rw [if_pos (by simp [hgc])]
      rw [hgc]
    · simp only [Function.comp_apply]
      rw [applyCats_other _ _ g hgc]
      by_cases hin : g.country ∈ cs.map remapUK
      · rw [if_pos hin, totalsOf_map_applyCats, if_pos (by simp [hin])]
      · rw [if_neg hin]
        rw [if_neg (by simp [hgc, hin])]

/-- The `totals` entry a category key reads. -/
def catField (t : Totals) (key : String) : ℚ :=
  if key = "solar" then t.solar
  else if key = "wind" then t.wind
  else if key = "onwind" then t.onwind
  else t.offwind

/-- A row of a solar/wind (type-keyed) group that a later tech-keyed
category with positive total also matches: its share is overwritten after
the group's own write. -/
def overwrittenLater (t : Totals) (key : String) (g : Gen) : Prop :=
  (key = "solar" ∨ key = "wind") ∧
    ((g.tech = "onwind" ∧ 0 < t.onwind) ∨ (g.tech = "offwind" ∧ 0 < t.offwind))

/-- A row that some category other than `key` (with positive total)
matches, so that its share is written by that other category's pass. -/
def matchesOtherCat (t : Totals) (key : String) (g : Gen) : Prop :=
  (g.type = "solar" ∧ 0 < t.solar ∧ key ≠ "solar") ∨
  (g.type = "wind" ∧ 0 < t.wind ∧ key ≠ "wind") ∨
  (g.tech = "onwind" ∧ 0 < t.onwind ∧ key ≠ "onwind") ∨
  (g.tech = "offwind" ∧ 0 < t.offwind ∧ key ≠ "offwind")

lemma catField_eq_catTotal (gens : List Gen) (c key : String) (col : Col)
    (hk : (key, col) ∈ categories) :
    catField (totalsOf gens c) key = catTotal gens c key col := by
  have hk' : (key = "solar" ∧ col = Col.type) ∨ (key = "wind" ∧ col = Col.type) ∨
      (key = "onwind" ∧ col = Col.tech) ∨ (key = "offwind" ∧ col = Col.tech) := by
    simpa [categories, Prod.ext_iff] using hk
  rcases hk' with ⟨rfl, rfl⟩ | ⟨rfl, rfl⟩ | ⟨rfl, rfl⟩ | ⟨rfl, rfl⟩ <;>
    simp [catField, totalsOf]

set_option maxHeartbeats 1600000 in
lemma applyCats_group_pos (t : Totals) (c : String) (g : Gen) (key : String)
    (col : Col) (hk : (key, col) ∈ categories)
    (hc : g.country = c) (hm : colVal col g = key)
    (hT : 0 < catField t key) (hno : ¬overwrittenLater t key g) :
    applyCats t c g =
      { g with normed_p_mw := some (g.p_mw_original / catField t key) } := by
  have hk' : (key = "solar" ∧ col = Col.type) ∨ (key = "wind" ∧ col = Col.type) ∨
      (key = "onwind" ∧ col = Col.tech) ∨ (key = "offwind" ∧ col = Col.tech) := by
    simpa [categories, Prod.ext_iff] using hk
  rcases hk' with ⟨rfl, rfl⟩ | ⟨rfl, rfl⟩ | ⟨rfl, rfl⟩ | ⟨rfl, rfl⟩
  · have hno1 : ¬(g.tech = "onwind" ∧ 0 < t.onwind) :=
      fun h => hno ⟨Or.inl rfl, Or.inl h⟩
    have hno2 : ¬(g.tech = "offwind" ∧ 0 < t.offwind) :=
      fun h => hno ⟨Or.inl rfl, Or.inr h⟩
    simp only [colVal] at hm
    simp only [applyCats, applyCatWrite, catField]
    split_ifs <;> simp_all [colVal, catField]
  · have hno1 : ¬(g.tech = "onwind" ∧ 0 < t.onwind) :=
      fun h => hno ⟨Or.inr rfl, Or.inl h⟩
    have hno2 : ¬(g.tech = "offwind" ∧ 0 < t.offwind) :=
      fun h => hno ⟨Or.inr rfl, Or.inr h⟩
    simp only [colVal] at hm
    simp only [applyCats, applyCatWrite, catField]
    split_ifs <;> simp_all [colVal, catField]
  · simp only [colVal] at hm
    simp only [applyCats, applyCatWrite, catField]
    split_ifs <;> simp_all [colVal, catField]
  · simp only [colVal] at hm
    simp only [applyCats, applyCatWrite, catField]
    split_ifs <;> simp_all [colVal, catField]

set_option maxHeartbeats 1600000 in
lemma applyCats_group_zero (t : Totals) (c : String) (g : Gen) (key : String)
    (col : Col) (hk : (key, col) ∈ categories)
    (_hc : g.country = c) (hm : colVal col g = key)
    (hT : catField t key = 0) (hmo : ¬matchesOtherCat t key g) :
    applyCats t c g = g := by
  have hk' : (key = "solar" ∧ col = Col.type) ∨ (key = "wind" ∧ col = Col.type) ∨
      (key = "onwind" ∧ col = Col.tech) ∨ (key = "offwind" ∧ col = Col.tech) := by
    simpa [categories, Prod.ext_iff] using hk
  have hs : ¬(g.type = "solar" ∧ 0 < t.solar ∧ key ≠ "solar") :=
    fun h => hmo (Or.inl h)
  have hw : ¬(g.type = "wind" ∧ 0 < t.wind ∧ key ≠ "wind") :=
    fun h => hmo (Or.inr (Or.inl h))
  have hon : ¬(g.tech = "onwind" ∧ 0 < t.onwind ∧ key ≠ "onwind") :=
    fun h => hmo (Or.inr (Or.inr (Or.inl h)))
  have hoff : ¬(g.tech = "offwind" ∧ 0 < t.offwind ∧ key ≠ "offwind") :=
    fun h => hmo (Or.inr (Or.inr (Or.inr h)))
  rcases hk' with ⟨rfl, rfl⟩ | ⟨rfl, rfl⟩ | ⟨rfl, rfl⟩ | ⟨rfl, rfl⟩ <;>
    simp only [colVal] at hm <;>
    simp only [catField] at hT <;>
    simp only [applyCats, applyCatWrite] <;>
    split_ifs <;> simp_all [colVal, catField]

lemma sum_map_div_q (l : List Gen) (f : Gen → ℚ) (T : ℚ) :
    (l.map fun g => f g / T).sum = (l.map f).sum / T := by
  induction l with
  | nil => simp
  | cons a t ih => simp [ih]; ring

lemma catTotal_eq_group (gens : List Gen) (c key : String) (col : Col) :
    catTotal gens c key col = ((countryGroup gens c key col).map Gen.p_mw_original).sum :=
  rfl

/-- The normalized-share write of one category: nameplate over total. -/
def setShare (T : ℚ) (g : Gen) : Gen :=
  { g with normed_p_mw := some (g.p_mw_original / T) }

lemma create_values_recompute_gens (net : Network) (regions : List Region)
    (force : Bool) (st : NormalizerState)
    (hforce : force = true ∨ st.cache = none)
    (hnd : ((uniqueList (regions.map Region.country)).map remapUK).Nodup) :
    (create_values_per_country net regions force st).1.gens =
      (genCountries net).map (fun g =>
        if g.country ∈ (uniqueList (regions.map Region.country)).map remapUK then
          applyCats (totalsOf (genCountries net) g.country) g.country g
        else g) := by
  rcases hforce with rfl | hc
  · cases hcache : st.cache <;>
      simp only [create_values_per_country, hcache] <;>
      exact recomputeCountries_gens_eq _ _ _ hnd
  · simp only [create_values_per_country, hc]
    exact recomputeCountries_gens_eq _ _ _ hnd

/-- C4 (amended): after a recomputing run of the capacity normalizer, for
every (country, category) group with positive total nameplate none of
whose rows is also matched by a later-processed overlapping category, each
row's normalized share is nameplate divided by the group total and the
group's shares sum to 1; a group with zero total whose rows no other
positive-total category matches is left with its shares untouched.
Because `wind` (matched on `type`) is processed before `onwind`/`offwind`
(matched on `tech`), rows carrying both labels end up with the
tech-category share, so the no-overlap condition is necessary. -/
theorem normalizer_shares_correct_without_overlap (net : Network)
    (regions : List Region) (force : Bool) (st : NormalizerState)
    (hforce : force = true ∨ st.cache = none)
    (hnd : ((uniqueList (regions.map Region.country)).map remapUK).Nodup)
    (key : String) (col : Col) (hk : (key, col) ∈ categories)
    (country : String)
    (hcountry : country ∈ (uniqueList (regions.map Region.country)).map remapUK) :
    (0 < catTotal (genCountries net) country key col →
      (∀ g ∈ countryGroup (genCountries net) country key col,
        ¬overwrittenLater (totalsOf (genCountries net) country) key g) →
      countryGroup (create_values_per_country net regions force st).1.gens
          country key col =
        (countryGroup (genCountries net) country key col).map
          (setShare (catTotal (genCountries net) country key col)) ∧
      ((countryGroup (create_values_per_country net regions force st).1.gens
          country key col).map nval).sum = 1) ∧
    (catTotal (genCountries net) country key col = 0 →
      (∀ g ∈ countryGroup (genCountries net) country key col,
        ¬matchesOtherCat (totalsOf (genCountries net) country) key g) →
      countryGroup (create_values_per_country net regions force st).1.gens
          country key col =
        countryGroup (genCountries net) country key col) := by
  have hG := create_values_recompute_gens net regions force st hforce hnd
  set gens0 := genCountries net with hg0
  set F : Gen → Gen := fun g =>
    if g.country ∈ (uniqueList (regions.map Region.country)).map remapUK then
      applyCats (totalsOf gens0 g.country) g.country g
    else g with hF
  have hFstat : ∀ g : Gen,
      (F g).country = g.country ∧ colVal col (F g) = colVal col g ∧
      (F g).p_mw_original = g.p_mw_original := by
    intro g
    rw [hF]
    by_cases h : g.country ∈ (uniqueList (regions.map Region.country)).map remapUK
    · simp only [if_pos h]
      exact ⟨(applyCats_static _ _ _).2.2.2, colVal_applyCats _ _ _ _,
        (applyCats_static _ _ _).1⟩
    · simp only [if_neg h]
      simp
  have hgroup : countryGroup (create_values_per_country net regions force st).1.gens
      country key col = (countryGroup gens0 country key col).map F := by
    rw [hG, countryGroup, countryGroup]
    apply filter_map_pres
    intro g
    simp [(hFstat g).1, (hFstat g).2.1]
  have hmemgrp : ∀ g ∈ countryGroup gens0 country key col,
      g.country = country ∧ colVal col g = key := by
    intro g hg
    rw [countryGroup, List.mem_filter] at hg
    exact of_decide_eq_true hg.2
  constructor
  · intro hT hno
    have hmap : (countryGroup gens0 country key col).map F =
        (countryGroup gens0 country key col).map
          (setShare (catTotal gens0 country key col)) := by
      apply List.map_congr_left
      intro g hg
      obtain ⟨hgc, hgm⟩ := hmemgrp g hg
      rw [hF]
      simp only [hgc, if_pos hcountry]
      rw [applyCats_group_pos (totalsOf gens0 country) country g key col hk hgc hgm
        (by rw [catField_eq_catTotal gens0 country key col hk]; exact hT)
        (hno g hg)]
      rw [setShare, catField_eq_catTotal gens0 country key col hk]
    refine ⟨by rw [hgroup, hmap], ?_⟩
    rw [hgroup, hmap, List.map_map]
    have : (nval ∘ setShare (catTotal gens0 country key col)) =
        fun g : Gen => g.p_mw_original / catTotal gens0 country key col := by
      funext g
      rfl
    rw [this, sum_map_div_q, ← catTotal_eq_group]
    exact div_self (ne_of_gt hT)
  · intro hT hmo
    rw [hgroup]
    have hmap : (countryGroup gens0 country key col).map F =
        (countryGroup gens0 country key col).map id := by
      apply List.map_congr_left
      intro g hg
      obtain ⟨hgc, hgm⟩ := hmemgrp g hg
      rw [hF]
      simp only [hgc, if_pos hcountry]
      rw [applyCats_group_zero (totalsOf gens0 country) country g key col hk hgc hgm
        (by rw [catField_eq_catTotal gens0 country key col hk]; exact hT)
        (hmo g hg)]
      rfl
    rw [hmap, List.map_id]

/-- The bus carrying the C4 example generators (zone "DE"). -/
def bus4 : Bus :=
  { idx := 0, name := "way0", zone := "DE", vn_kv := 110, in_service := true,
    x := 0, y := 0 }

/-- C4 counterexample generator: `type` "wind" AND `tech` "onwind". -/
def gen4a : Gen :=
  { bus := 0, name := "w1", p_mw := 0, min_p_mw := 0, max_p_mw := 0,
    controllable := true, type := "wind", tech := "onwind", cost_per_mw := 0,
    p_mw_original := 1, country := "", normed_p_mw := none, scaling := 1,
    in_service := true, slack := false }

/-- C4 counterexample generator: `type` "wind" AND `tech` "offwind". -/
def gen4b : Gen :=
  { bus := 0, name := "w2", p_mw := 0, min_p_mw := 0, max_p_mw := 0,
    controllable := true, type := "wind", tech := "offwind", cost_per_mw := 0,
    p_mw_original := 1, country := "", normed_p_mw := none, scaling := 1,
    in_service := true, slack := false }

/-- The C4 counterexample network. -/
def net4x : Network := { buses := [bus4], gens := [gen4a, gen4b], loads := [] }

/-- The single-country region list of the C4 examples. -/
def regs4 : List Region := [{ country := "DE", id := "r", load_factor := 1 }]

theorem c4_cx_g0 : genCountries net4x =
    [{ gen4a with country := "DE" }, { gen4b with country := "DE" }] := by
  simp [genCountries, net4x, gen4a, gen4b, zoneOf, bus4, List.find?]

theorem c4_cx_gens : (create_values_per_country net4x regs4 true ⟨none⟩).1.gens =
    [{ gen4a with country := "DE", normed_p_mw := some 1 },
     { gen4b with country := "DE", normed_p_mw := some 1 }] := by
  rw [create_values_recompute_gens net4x regs4 true ⟨none⟩ (Or.inl rfl)
    (by simp [uniqueList, regs4])]
  rw [c4_cx_g0]
  simp [uniqueList, regs4, remapUK, applyCats, applyCatWrite, totalsOf,
    catTotal, colVal, gen4a, gen4b]

/-- C4 counterexample: a country with one `type = "wind"` unit of tech
"onwind" and one of tech "offwind" (1 MW nameplate each).  The wind group
(matched on `type`) has total 2 and its units' shares should be 1/2 each
summing to 1; but the later onwind/offwind passes overwrite both shares to
1, so the wind-group shares sum to 2, not 1. -/
theorem normalizer_wind_group_shares_counterexample :
    0 < catTotal (genCountries net4x) "DE" "wind" Col.type ∧
    ((countryGroup (create_values_per_country net4x regs4 true ⟨none⟩).1.gens
        "DE" "wind" Col.type).map nval).sum ≠ 1 := by
  constructor
  · rw [c4_cx_g0]
    simp [catTotal, colVal, gen4a, gen4b]
  · rw [c4_cx_gens]
    simp [countryGroup, colVal, nval, gen4a, gen4b]

/-- First solar unit of the C4 witness network. -/
def gen4c : Gen :=
  { bus := 0, name := "s1", p_mw := 0, min_p_mw := 0, max_p_mw := 0,
    controllable := true, type := "solar", tech := "solar", cost_per_mw := 0,
    p_mw_original := 10, country := "", normed_p_mw := none, scaling := 1,
    in_service := true, slack := false }

/-- Second solar unit of the C4 witness network. -/
def gen4d : Gen :=
  { bus := 0, name := "s2", p_mw := 0, min_p_mw := 0, max_p_mw := 0,
    controllable := true, type := "solar", tech := "solar", cost_per_mw := 0,
    p_mw_original := 30, country := "", normed_p_mw := none, scaling := 1,
    in_service := true, slack := false }

/-- The C4 witness network: two solar units, 10 and 30 MW. -/
def net4w : Network := { buses := [bus4], gens := [gen4c, gen4d], loads := [] }

/-- C4 witness: the amended theorem applied to the two-unit solar group:
shares become 10/40 and 30/40 and sum to 1. -/
theorem normalizer_shares_correct_without_overlap_witness :
    0 < catTotal (genCountries net4w) "DE" "solar" Col.type ∧
    countryGroup (create_values_per_country net4w regs4 true ⟨none⟩).1.gens
        "DE" "solar" Col.type =
      (countryGroup (genCountries net4w) "DE" "solar" Col.type).map
        (setShare (catTotal (genCountries net4w) "DE" "solar" Col.type)) ∧
    ((countryGroup (create_values_per_country net4w regs4 true ⟨none⟩).1.gens
        "DE" "solar" Col.type).map nval).sum = 1 := by
  have hg0 : genCountries net4w =
      [{ gen4c with country := "DE" }, { gen4d with country := "DE" }] := by
    simp [genCountries, net4w, gen4c, gen4d, zoneOf, bus4, List.find?]
  have hT : 0 < catTotal (genCountries net4w) "DE" "solar" Col.type := by
    rw [hg0]
    simp [catTotal, colVal, gen4c, gen4d]
    norm_num
  have hno : ∀ g ∈ countryGroup (genCountries net4w) "DE" "solar" Col.type,
      ¬overwrittenLater (totalsOf (genCountries net4w) "DE") "solar" g := by
    rw [hg0]
    intro g hg
    simp [countryGroup, colVal, gen4c, gen4d] at hg
    rcases hg with rfl | rfl <;>
      simp [overwrittenLater, gen4c, gen4d]
  obtain ⟨h1, h2⟩ :=
    (normalizer_shares_correct_without_overlap net4w regs4 true ⟨none⟩
      (Or.inl rfl) (by simp [uniqueList, regs4]) "solar" Col.type
      (by simp [categories]) "DE" (by simp [uniqueList, regs4, remapUK])).1 hT hno
  exact ⟨hT, h1, h2⟩


/-- Solar unit of the C9 example networks (10 MW). -/
def gen9a : Gen :=
  { bus := 0, name := "s1", p_mw := 0, min_p_mw := 0, max_p_mw := 0,
    controllable := true, type := "solar", tech := "solar", cost_per_mw := 0,
    p_mw_original := 10, country := "", normed_p_mw := none, scaling := 1,
    in_service := true, slack := false }

/-- Second solar unit of the C9 first network (10 MW). -/
def gen9b : Gen :=
  { bus := 0, name := "s2", p_mw := 0, min_p_mw := 0, max_p_mw := 0,
    controllable := true, type := "solar", tech := "solar", cost_per_mw := 0,
    p_mw_original := 10, country := "", normed_p_mw := none, scaling := 1,
    in_service := true, slack := false }

/-- The C9 second network's version of the second unit: nameplate changed
to 30 MW. -/
def gen9c : Gen :=
  { gen9b with p_mw_original := 30 }

/-- The bus of the C9 networks. -/
def bus9 : Bus :=
  { idx := 0, name := "way0", zone := "DE", vn_kv := 110, in_service := true,
    x := 0, y := 0 }

/-- C9 network before the capacity change (shares 1/2, 1/2). -/
def net9a : Network := { buses := [bus9], gens := [gen9a, gen9b], loads := [] }

/-- C9 network after the capacity change (shares 1/4, 3/4). -/
def net9b : Network := { buses := [bus9], gens := [gen9a, gen9c], loads := [] }

/-- The single-country region list of the C9 examples. -/
def regs9 : List Region := [{ country := "DE", id := "r", load_factor := 1 }]

/-- C9: without the force signal a second call returns the cached totals
verbatim and leaves every `normed_p_mw` untouched (only the `country`
column is refreshed); with force the call recomputes from the current
network regardless of the cache, and after a nameplate change the
recomputed shares differ from the shares of the original network. -/
theorem normalizer_cache_idempotent_and_force_recomputes :
    (∀ (net : Network) (regions : List Region) (st : NormalizerState)
        (c : List (String × Totals)), st.cache = some c →
      create_values_per_country net regions false st =
        ({ net with gens := genCountries net }, st, c) ∧
      (create_values_per_country net regions false st).1.gens.map
          Gen.normed_p_mw = net.gens.map Gen.normed_p_mw) ∧
    (∀ (net : Network) (regions : List Region) (st : NormalizerState),
      create_values_per_country net regions true st =
        create_values_per_country net regions true ⟨none⟩) ∧
    (create_values_per_country net9b regs9 true ⟨none⟩).1.gens.map
        Gen.normed_p_mw ≠
      (create_values_per_country net9a regs9 true ⟨none⟩).1.gens.map
        Gen.normed_p_mw := by
  refine ⟨?_, ?_, ?_⟩
  · intro net regions st c hc
    constructor
    · simp only [create_values_per_country, hc]
    · simp only [create_values_per_country, hc]
      rw [genCountries, List.map_map]
      apply List.map_congr_left
      intro g _
      rfl
  · intro net regions st
    cases hcache : st.cache <;> simp [create_values_per_country, hcache]
  · have ha : (create_values_per_country net9a regs9 true ⟨none⟩).1.gens.map
        Gen.normed_p_mw = [some (1/2 : ℚ), some (1/2 : ℚ)] := by
      rw [create_values_recompute_gens net9a regs9 true ⟨none⟩ (Or.inl rfl)
        (by simp [uniqueList, regs9])]
      simp [genCountries, net9a, gen9a, gen9b, zoneOf, bus9, List.find?,
        uniqueList, regs9, remapUK, applyCats, applyCatWrite, totalsOf,
        catTotal, colVal]
      norm_num
    have hb : (create_values_per_country net9b regs9 true ⟨none⟩).1.gens.map
        Gen.normed_p_mw = [some (1/4 : ℚ), some (3/4 : ℚ)] := by
      rw [create_values_recompute_gens net9b regs9 true ⟨none⟩ (Or.inl rfl)
        (by simp [uniqueList, regs9])]
      simp [genCountries, net9b, gen9a, gen9b, gen9c, zoneOf, bus9, List.find?,
        uniqueList, regs9, remapUK, applyCats, applyCatWrite, totalsOf,
        catTotal, colVal]
      norm_num
    rw [ha, hb]
    simp


/-- A cache as left by a first normalizer call on `net9a`. -/
def cache9 : List (String × Totals) := [("DE", ⟨20, 0, 0, 0⟩)]

/-- C9 witness: a second, unforced call on a state carrying `cache9`
returns the cache verbatim and leaves the shares alone. -/
theorem normalizer_cache_idempotent_and_force_recomputes_witness :
    (⟨some cache9⟩ : NormalizerState).cache = some cache9 ∧
    create_values_per_country net9a regs9 false ⟨some cache9⟩ =
      ({ net9a with gens := genCountries net9a }, ⟨some cache9⟩, cache9) ∧
    (create_values_per_country net9a regs9 false ⟨some cache9⟩).1.gens.map
      Gen.normed_p_mw = net9a.gens.map Gen.normed_p_mw :=
  ⟨rfl,
   (normalizer_cache_idempotent_and_force_recomputes.1 net9a regs9
     ⟨some cache9⟩ cache9 rfl).1,
   (normalizer_cache_idempotent_and_force_recomputes.1 net9a regs9
     ⟨some cache9⟩ cache9 rfl).2⟩

/-! ### C8: missing time-series columns, skipped redistribution, driver rows -/

/-- The dispatch triple of a generator row: the fields the claim says must
stay at their prior-step values when the redistribution is skipped. -/
def dispatch (g : Gen) : ℚ × ℚ × ℚ :=
  (g.p_mw, g.min_p_mw, g.max_p_mw)

/-- Dispatch triple together with the `tech` column: the normalizer and the
country-column refresh preserve both. -/
def projDT (g : Gen) : (ℚ × ℚ × ℚ) × String :=
  (dispatch g, g.tech)

lemma writeCat_projDT (gens : List Gen) (c k : String) (col : Col) (t : ℚ) :
    (writeCat gens c k col t).map projDT = gens.map projDT := by
  unfold writeCat
  split
  · rw [List.map_map]
    apply List.map_congr_left
    intro g _
    by_cases h : g.country = c ∧ colVal col g = k <;>
      simp [Function.comp, projDT, dispatch, h]
  · rfl

lemma processCountry_projDT (gens : List Gen) (c : String) :
    (processCountry gens c).1.map projDT = gens.map projDT := by
  unfold processCountry
  simp only [writeCat_projDT]

lemma recomputeCountries_projDT (cs : List String) :
    ∀ gens cache, (recomputeCountries gens cs cache).1.map projDT =
      gens.map projDT := by
  induction cs with
  | nil => intro gens cache; rfl
  | cons c cs ih =>
    intro gens cache
    rw [recomputeCountries]
    rw [ih, processCountry_projDT]

lemma genCountries_projDT (net : Network) :
    (genCountries net).map projDT = net.gens.map projDT := by
  unfold genCountries
  rw [List.map_map]
  apply List.map_congr_left
  intro g _
  rfl

lemma create_values_projDT (net : Network) (regions : List Region)
    (force : Bool) (st : NormalizerState) :
    (create_values_per_country net regions force st).1.gens.map projDT =
      net.gens.map projDT := by
  unfold create_values_per_country
  rcases st with ⟨_ | c⟩ <;> cases force <;>
    simp [recomputeCountries_projDT, genCountries_projDT]

/-- One region iteration leaves the generator table untouched when the
region is not UK, no generator has wind technology split (`onwind` /
`offwind`), no solar column of the region's country is present, and the
six scan variables are still at their initial `None`. -/
lemma updateRegion_frame (ts : TimeSeries) (t : ℕ) (variable_ : Bool)
    (cache : List (String × Totals)) (st : RegionScanState) (region : Region)
    (st' : RegionScanState)
    (hUK : region.country ≠ "UK")
    (hwind : ∀ g ∈ st.net.gens, g.tech ≠ "onwind" ∧ g.tech ≠ "offwind")
    (hsolar : ∀ col ∈ ts.cols,
      strStartsWith col (region.country ++ "_solar_generation_actual") = false)
    (hpOn : st.prefixOnwind = none) (hpOff : st.prefixOffwind = none)
    (hpW : st.prefixWind = none) (hmOn : st.matchOnwind = none)
    (hmOff : st.matchOffwind = none) (hmW : st.matchWind = none)
    (hrun : updateRegion ts t variable_ cache st region = some st') :
    st'.net.gens = st.net.gens := by
  have hOn : (st.net.gens.any fun g => g.tech = "onwind") = false := by
    simp only [List.any_eq_false, decide_eq_true_eq]
    intro g hg
    exact (hwind g hg).1
  have hOff : (st.net.gens.any fun g => g.tech = "offwind") = false := by
    simp only [List.any_eq_false, decide_eq_true_eq]
    intro g hg
    exact (hwind g hg).2
  have hmcS : (ts.cols.filter fun col =>
      strStartsWith col (region.country ++ "_solar_generation_actual")) = [] := by
    rw [List.filter_eq_nil_iff]
    intro a ha
    simp [hsolar a ha]
  rw [updateRegion] at hrun
  rw [hOn, hOff] at hrun
  simp only [hUK, if_false, Bool.false_eq_true, false_and, if_neg,
    ite_false, hpOn, hpOff, hpW] at hrun
  cases hlk : lookupTotals cache (remapUK region.country) with
  | none =>
    rw [hlk] at hrun
    simp at hrun
  | some tot =>
    rw [hlk] at hrun
    simp only [hmcS, Option.isSome_none, Bool.false_eq_true, if_false,
      ite_false, hmOn, hmOff, hmW, ne_eq, not_true_eq_false, and_false,
      false_and, and_true, not_false_eq_true, ite_self,
      Option.some.injEq] at hrun
    subst hrun
    dsimp only
    split_ifs <;> rfl

lemma noWind_of_projDT_eq {l1 l2 : List Gen}
    (h : l1.map projDT = l2.map projDT)
    (hw : ∀ g ∈ l2, g.tech ≠ "onwind" ∧ g.tech ≠ "offwind") :
    ∀ g ∈ l1, g.tech ≠ "onwind" ∧ g.tech ≠ "offwind" := by
  intro g hg
  have hmem : projDT g ∈ l2.map projDT := h ▸ List.mem_map_of_mem projDT hg
  obtain ⟨g2, hg2, he⟩ := List.mem_map.1 hmem
  have ht : g2.tech = g.tech := congrArg Prod.snd he
  rw [← ht]
  exact hw g2 hg2

lemma dispatch_of_projDT_eq {l1 l2 : List Gen}
    (h : l1.map projDT = l2.map projDT) :
    l1.map dispatch = l2.map dispatch := by
  have h2 := congrArg (List.map Prod.fst) h
  simpa [List.map_map, Function.comp, projDT] using h2

lemma solarTechWrite_dispatch (l : List Gen) :
    ((l.map fun g => if g.type = "solar" then { g with tech := "solar" }
        else g).map dispatch) = l.map dispatch := by
  rw [List.map_map]
  apply List.map_congr_left
  intro g _
  by_cases h : g.type = "solar" <;> simp [Function.comp, dispatch, h]

lemma solarTechWrite_noWind (l : List Gen)
    (hw : ∀ g ∈ l, g.tech ≠ "onwind" ∧ g.tech ≠ "offwind") :
    ∀ g ∈ (l.map fun g => if g.type = "solar" then { g with tech := "solar" }
        else g), g.tech ≠ "onwind" ∧ g.tech ≠ "offwind" := by
  intro g hg
  obtain ⟨g0, hg0, he⟩ := List.mem_map.1 hg
  subst he
  by_cases h : g0.type = "solar"
  · simp [h]
  · simpa [h] using hw g0 hg0

/-- A single `update_loads` call on a one-region list leaves the dispatch
triples of all generators unchanged when the region is not UK, no generator
carries split wind technology, and no solar column of the region's country
exists in the series. -/
lemma update_loads_frame_single (net : Network) (ts : TimeSeries)
    (region : Region) (t : ℕ) (force variable_ : Bool) (st : NormalizerState)
    (net' : Network) (st' : NormalizerState)
    (hUK : region.country ≠ "UK")
    (hwind : ∀ g ∈ net.gens, g.tech ≠ "onwind" ∧ g.tech ≠ "offwind")
    (hsolar : ∀ col ∈ ts.cols,
      strStartsWith col (region.country ++ "_solar_generation_actual") = false)
    (hrun : update_loads net ts [region] t force variable_ st
      = some (net', st')) :
    net'.gens.map dispatch = net.gens.map dispatch ∧
      ∀ g ∈ net'.gens, g.tech ≠ "onwind" ∧ g.tech ≠ "offwind" := by
  have hprojDT := create_values_projDT net [region] force st
  simp only [update_loads, List.foldlM_cons, List.foldlM_nil] at hrun
  set net0 := (create_values_per_country net [region] force st).1 with hnet0
  set cache := (create_values_per_country net [region] force st).2.2 with hcache
  set st1 := (create_values_per_country net [region] force st).2.1 with hst1
  set net1 : Network := { net0 with gens := net0.gens.map (fun g =>
    if g.type = "solar" then { g with tech := "solar" } else g) } with hnet1
  set init : RegionScanState :=
    (⟨net1, none, none, none, none, none, none⟩ : RegionScanState) with hinit
  have hw0 : ∀ g ∈ net0.gens, g.tech ≠ "onwind" ∧ g.tech ≠ "offwind" :=
    noWind_of_projDT_eq hprojDT hwind
  have hw1 : ∀ g ∈ net1.gens, g.tech ≠ "onwind" ∧ g.tech ≠ "offwind" := by
    rw [hnet1]
    exact solarTechWrite_noWind net0.gens hw0
  cases hur : updateRegion ts t variable_ cache init region with
  | none =>
    rw [hur] at hrun
    simp at hrun
  | some s =>
    rw [hur] at hrun
    simp only [Option.bind_eq_bind, Option.some_bind, Option.bind_some,
      Option.some.injEq, Prod.mk.injEq] at hrun
    obtain ⟨h1, h2⟩ := hrun
    have hfr := updateRegion_frame ts t variable_ cache init region s hUK
      hw1 hsolar rfl rfl rfl rfl rfl rfl hur
    constructor
    · rw [← h1, hfr]
      show net1.gens.map dispatch = net.gens.map dispatch
      calc net1.gens.map dispatch
          = net0.gens.map dispatch := by
            rw [hnet1]
            exact solarTechWrite_dispatch net0.gens
        _ = net.gens.map dispatch := dispatch_of_projDT_eq hprojDT
    · rw [← h1, hfr]
      exact hw1

/-- The time-step loop on a single eligible region: one summary row per
step, and generator dispatch preserved throughout. -/
lemma timeSeriesAux_frame (solver : String → Network → SolverOutput)
    (calculation : String) (ts : TimeSeries) (region : Region)
    (hUK : region.country ≠ "UK")
    (hsolar : ∀ col ∈ ts.cols,
      strStartsWith col (region.country ++ "_solar_generation_actual") = false) :
    ∀ (steps : List ℕ) (net : Network) (st : NormalizerState)
      (fi variable_ : Bool) (acc rows : List SummaryRow) (net' : Network)
      (st' : NormalizerState),
      (∀ g ∈ net.gens, g.tech ≠ "onwind" ∧ g.tech ≠ "offwind") →
      timeSeriesAux solver calculation ts [region] steps net st fi variable_ acc
        = some (rows, net', st') →
      rows.length = steps.length + acc.length ∧
        net'.gens.map dispatch = net.gens.map dispatch ∧
        ∀ g ∈ net'.gens, g.tech ≠ "onwind" ∧ g.tech ≠ "offwind" := by
  intro steps
  induction steps with
  | nil =>
    intro net st fi variable_ acc rows net' st' hwind hrun
    rw [timeSeriesAux] at hrun
    simp only [Option.some.injEq, Prod.mk.injEq] at hrun
    obtain ⟨h1, h2, h3⟩ := hrun
    subst h1
    subst h2
    exact ⟨by simp, rfl, hwind⟩
  | cons t rest ih =>
    intro net st fi variable_ acc rows net' st' hwind hrun
    rw [timeSeriesAux] at hrun
    cases hul : update_loads net ts [region] t fi variable_ st with
    | none =>
      rw [hul] at hrun
      simp at hrun
    | some p =>
      obtain ⟨net1, st1⟩ := p
      rw [hul] at hrun
      dsimp only at hrun
      by_cases hc : calculation ∈ validCalculations
      · rw [if_pos hc] at hrun
        have hfr := update_loads_frame_single net ts region t fi variable_ st
          net1 st1 hUK hwind hsolar hul
        have hres := ih net1 st1 false variable_
          ({ time_step := t,
             total_load := (solver calculation net1).total_load,
             total_generation := (solver calculation net1).total_generation,
             max_line_loading := (solver calculation net1).max_line_loading,
             max_loading_index := (solver calculation net1).max_loading_index }
            :: acc) rows net' st' hfr.2 hrun
        refine ⟨?_, hres.2.1.trans hfr.1, hres.2.2⟩
        rw [hres.1]
        simp [Nat.add_assoc, Nat.add_comm 1 acc.length]
      · rw [if_neg hc] at hrun
        simp at hrun

/-- **C8** (amended): for a scenario run over a single non-UK region whose
generators carry no split wind technology (`onwind`/`offwind`) and whose
country has no solar column in the series, any successful driver run
produces exactly one summary row per supplied time step and leaves the
dispatch triple (`p_mw`, `min_p_mw`, `max_p_mw`) of every generator at its
initial value: the redistribution steps whose columns are absent are
skipped.  (The unconditional claim is refuted by the crash counterexample:
row count and skipping hold only when the run completes.) -/
theorem update_skips_missing_columns_and_row_count
    (solver : String → Network → SolverOutput) (calculation : String)
    (ts : TimeSeries) (steps : List ℕ) (net : Network) (region : Region)
    (st : NormalizerState) (force variable_ : Bool)
    (rows : List SummaryRow) (net' : Network) (st' : NormalizerState)
    (hrun : time_series_pf_results solver calculation ts steps net [region] st
      force variable_ = some (rows, net', st'))
    (hUK : region.country ≠ "UK")
    (hwind : ∀ g ∈ net.gens, g.tech ≠ "onwind" ∧ g.tech ≠ "offwind")
    (hsolar : ∀ col ∈ ts.cols,
      strStartsWith col (region.country ++ "_solar_generation_actual") = false) :
    rows.length = steps.length ∧
      net'.gens.map dispatch = net.gens.map dispatch := by
  unfold time_series_pf_results at hrun
  have h := timeSeriesAux_frame solver calculation ts region hUK hsolar steps
    net st force variable_ [] rows net' st' hwind hrun
  exact ⟨by simpa using h.1, h.2.1⟩

/-- A DE bus for the C8 scenarios. -/
def bus8 : Bus := ⟨0, "relation8", "DE", 380, true, 0, 0⟩

/-- An offshore-wind generator (`tech = "offwind"`) in DE. -/
def gen8 : Gen :=
  ⟨0, "G8", 0, 0, 0, true, "other", "offwind", 0, 0, "DE", none, 1, true, false⟩

/-- Network with the offwind generator. -/
def net8 : Network := ⟨[bus8], [gen8], []⟩

/-- The DE load region. -/
def reg8 : Region := ⟨"DE", "R8", 1⟩

/-- A time series with no columns at all: every expected column is absent. -/
def ts8 : TimeSeries := ⟨[], fun _ _ => 0⟩

/-- A solver oracle returning zero aggregates. -/
def solv8 : String → Network → SolverOutput := fun _ _ => ⟨0, 0, 0, 0⟩

/-- C8 counterexample: with an `offwind` generator in a non-UK country and
no wind column of any kind in the series, `update_loads` does not skip the
wind redistribution — the generic-wind fallback indexes
`matching_columns_wind[0]` on the empty match list (IndexError), so the
driver crashes (`none`) and produces zero summary rows instead of one row
per step with dispatch unchanged. -/
theorem update_missing_wind_column_crash_counterexample :
    time_series_pf_results solv8 "ac_pf" ts8 [0] net8 [reg8] ⟨none⟩ true false
      = none := by
  have hA : update_loads net8 ts8 [reg8] 0 true false ⟨none⟩ = none := by
    simp [update_loads, create_values_per_country, recomputeCountries,
      processCountry, totalsOf, catTotal, writeCat, genCountries, zoneOf,
      uniqueList, remapUK, colVal, upsert, updateRegion, lookupTotals,
      net8, gen8, bus8, reg8, ts8, List.foldlM, strStartsWith]
  rw [time_series_pf_results, timeSeriesAux, hA]

/-- An FR bus for the C8 witness. -/
def busW8 : Bus := ⟨0, "relationW8", "FR", 380, true, 0, 0⟩

/-- A coal generator in FR (no split wind technology). -/
def genW8 : Gen :=
  ⟨0, "GW8", 7, 2, 9, true, "coal", "coal", 0, 7, "FR", none, 1, true, false⟩

/-- Network for the C8 witness. -/
def netW8 : Network := ⟨[busW8], [genW8], []⟩

/-- The FR load region for the C8 witness. -/
def regW8 : Region := ⟨"FR", "RW8", 1⟩

/-- The summary row of the witness run. -/
def rowW8 : SummaryRow := ⟨0, 0, 0, 0, 0⟩

/-- The cache the witness run computes for FR. -/
def cacheW8 : List (String × Totals) := [("FR", ⟨0, 0, 0, 0⟩)]

/-- C8 witness: a one-step run over the FR region with an empty series
succeeds, yields exactly one summary row, and leaves the generator's
dispatch triple unchanged. -/
theorem update_skips_missing_columns_and_row_count_witness :
    (time_series_pf_results solv8 "ac_pf" ts8 [0] netW8 [regW8] ⟨none⟩ true
        false = some ([rowW8], netW8, ⟨some cacheW8⟩)) ∧
      [rowW8].length = [(0 : ℕ)].length ∧
        netW8.gens.map dispatch = netW8.gens.map dispatch := by
  have hA : update_loads netW8 ts8 [regW8] 0 true false ⟨none⟩
      = some (netW8, ⟨some cacheW8⟩) := by
    simp [update_loads, create_values_per_country, recomputeCountries,
      processCountry, totalsOf, catTotal, writeCat, genCountries, zoneOf,
      uniqueList, remapUK, colVal, upsert, updateRegion, lookupTotals,
      netW8, genW8, busW8, regW8, ts8, cacheW8, List.foldlM, strStartsWith]
  have hrun : time_series_pf_results solv8 "ac_pf" ts8 [0] netW8 [regW8]
      ⟨none⟩ true false = some ([rowW8], netW8, ⟨some cacheW8⟩) := by
    rw [time_series_pf_results, timeSeriesAux, hA]
    simp [validCalculations, timeSeriesAux, solv8, rowW8]
  refine ⟨hrun, ?_⟩
  exact update_skips_missing_columns_and_row_count solv8 "ac_pf" ts8 [0] netW8
    regW8 ⟨none⟩ true false [rowW8] netW8 ⟨some cacheW8⟩ hrun (by decide)
    (by decide) (by intro col hc; cases hc)

end EnergyModelling
